import Mathlib

/-!
# Blend4u storefront: the client-side cart model

Shallow embedding of `src/frontend/src/context/CartContext.js`.

The React state `cart` is a JavaScript array of line-item objects; every
mutation is a pure updater `prev => next` handed to `setCart`.  Each updater is
embedded as a Lean function from the previous cart to the next one.  Product
ids are strings compared with `===` and quantities are integers.  Prices and
totals are JavaScript numbers, that is IEEE 754 double precision values, and
are added and multiplied with the rounding of that format.
-/

namespace Blend4u

/-! ## JavaScript numbers

A finite double is an integer multiple of `2 ^ (-1074)`, the smallest positive
double; it is kept as that integer.  The result of an operation is the exact
result rounded to 53 significant bits, ties to even, and is an infinity from
`2 ^ 1024` on.  The two zeros are not told apart (`-0 === 0`). -/

/-- A JavaScript number: the finite value `units * 2 ^ (-1074)`, an infinity, or `NaN`. -/
inductive JSNumber where
  | finite (units : Int)
  | infinity (negative : Bool)
  | nan
  deriving DecidableEq, Repr

/-- The number of binary digits of `n`, computed by halving at most `fuel` times. -/
def bitLengthAux : Nat → Nat → Nat
  | 0, _ => 0
  | fuel + 1, n => if n = 0 then 0 else bitLengthAux fuel (n / 2) + 1

/-- The number of binary digits of `n` (0 for 0). -/
def bitLength (n : Nat) : Nat :=
  bitLengthAux n n

/-- The number of low bits that rounding drops: all beyond the leading 53, and at least
`minShift`. -/
def roundShift (n minShift : Nat) : Nat :=
  max (bitLength n - 53) minShift

/-- The value `n / 2 ^ shift` rounded to the nearest integer, a tie going to the even one. -/
def roundQuotient (n shift : Nat) : Nat :=
  if shift ≠ 0 ∧
      (2 ^ (shift - 1) < n % 2 ^ shift ∨
        (n % 2 ^ shift = 2 ^ (shift - 1) ∧ n / 2 ^ shift % 2 = 1)) then
    n / 2 ^ shift + 1
  else
    n / 2 ^ shift

/-- The magnitude `n`, given in units of `2 ^ (-1074 - minShift)`, rounded to a double and
given in units of `2 ^ (-1074)`. -/
def roundMagnitude (n minShift : Nat) : Nat :=
  roundQuotient n (roundShift n minShift) * 2 ^ (roundShift n minShift - minShift)

/-- The double with the given sign and rounded magnitude: an infinity from `2 ^ 1024` on. -/
def pack (negative : Bool) (units : Nat) : JSNumber :=
  if 2 ^ 2098 ≤ units then .infinity negative
  else .finite (if negative then -(units : Int) else (units : Int))

/-- The number of units in the value 1. -/
def unitsPerOne : Nat :=
  2 ^ 1074

/-- The double nearest to the integer `k`. -/
def JSNumber.ofInt (k : Int) : JSNumber :=
  pack (decide (k < 0)) (roundMagnitude (k.natAbs * unitsPerOne) 0)

/-- The unary minus. -/
def JSNumber.neg : JSNumber → JSNumber
  | .finite a => .finite (-a)
  | .infinity s => .infinity (!s)
  | .nan => .nan

/-- The operator `+` on numbers. -/
def JSNumber.add : JSNumber → JSNumber → JSNumber
  | .finite a, .finite b => pack (decide (a + b < 0)) (roundMagnitude (a + b).natAbs 0)
  | .finite _, .infinity t => .infinity t
  | .infinity s, .finite _ => .infinity s
  | .infinity s, .infinity t => if s = t then .infinity s else .nan
  | .nan, _ => .nan
  | _, .nan => .nan

/-- The operator `-` on numbers. -/
def JSNumber.sub (x y : JSNumber) : JSNumber :=
  x.add y.neg

/-- The operator `*` on numbers. -/
def JSNumber.mul : JSNumber → JSNumber → JSNumber
  | .finite a, .finite b =>
    pack (decide (a < 0) != decide (b < 0)) (roundMagnitude (a.natAbs * b.natAbs) 1074)
  | .finite a, .infinity t => if a = 0 then .nan else .infinity (decide (a < 0) != t)
  | .infinity s, .finite b => if b = 0 then .nan else .infinity (s != decide (b < 0))
  | .infinity s, .infinity t => .infinity (s != t)
  | .nan, _ => .nan
  | _, .nan => .nan

/-- The double `mantissa * 2 ^ exponent`, for an exponent of at least -1074. -/
def double (mantissa : Int) (exponent : Int) : JSNumber :=
  .finite (mantissa * Int.ofNat (2 ^ (exponent + 1074).toNat))

instance (n : Nat) : OfNat JSNumber n :=
  ⟨JSNumber.ofInt n⟩

/-- The units of a finite number (0 for an infinity and for `NaN`). -/
def JSNumber.units : JSNumber → Int
  | .finite a => a
  | _ => 0

/-- The number is a finite whole number. -/
def JSNumber.isWhole : JSNumber → Bool
  | .finite a => a % (unitsPerOne : Int) == 0
  | _ => false

/-- The integer part of a finite number (0 for an infinity and for `NaN`). -/
def JSNumber.toInt : JSNumber → Int
  | .finite a => a / (unitsPerOne : Int)
  | _ => 0

/-- The fields of a catalogue product that `addToCart` reads. -/
structure Product where
  id : String
  name : String
  price_inr : JSNumber
  images : List String
  deriving DecidableEq, Repr

/-- One entry of the `cart` array, as built by `addToCart`.  The field `image`
is `product.images[0]`, which is `undefined` (here `none`) for an empty array. -/
structure LineItem where
  product_id : String
  product_name : String
  quantity : Int
  price : JSNumber
  image : Option String
  deriving DecidableEq, Repr

/-- The `cart` state: an ordered array of line items. -/
abbrev Cart := List LineItem

/-- The object literal appended by `addToCart` when the product is not yet in the cart. -/
def newLineItem (product : Product) (quantity : Int) : LineItem :=
  { product_id := product.id
    product_name := product.name
    quantity := quantity
    price := product.price_inr
    image := product.images[0]? }

/-- The updater of `addToCart(product, quantity)`: `prev.find` looks for a line
item with the product's id; when one is found every matching item gets
`quantity` added, otherwise a new line item is appended. -/
def addToCart (prev : Cart) (product : Product) (quantity : Int) : Cart :=
  match prev.find? (fun item => item.product_id == product.id) with
  | some _ =>
    prev.map (fun item =>
      if item.product_id == product.id
      then { item with quantity := item.quantity + quantity }
      else item)
  | none => prev ++ [newLineItem product quantity]

/-- The call `addToCart(product)` with the default parameter `quantity = 1`. -/
def addToCartDefault (prev : Cart) (product : Product) : Cart :=
  addToCart prev product 1

/-- The updater of `removeFromCart(productId)`: a `filter` on `product_id !== productId`. -/
def removeFromCart (prev : Cart) (productId : String) : Cart :=
  prev.filter (fun item => item.product_id != productId)

/-- The cart change of `updateQuantity(productId, quantity)`: for `quantity <= 0` it
calls `removeFromCart` and returns, otherwise it maps the new quantity over
the matching items. -/
def updateQuantity (prev : Cart) (productId : String) (quantity : Int) : Cart :=
  if quantity ≤ 0 then
    removeFromCart prev productId
  else
    prev.map (fun item =>
      if item.product_id == productId
      then { item with quantity := quantity }
      else item)

/-- The cart change of `clearCart()`: `setCart([])`. -/
def clearCart (_prev : Cart) : Cart := []

/-- The aggregate `getTotal()`: a left-to-right `reduce` starting from `0`, in the
arithmetic of JavaScript numbers. -/
def getTotal (cart : Cart) : JSNumber :=
  cart.foldl (fun sum item => sum.add (item.price.mul (JSNumber.ofInt item.quantity))) 0

/-- The aggregate `getItemCount()`: a left-to-right `reduce` starting from `0`. -/
def getItemCount (cart : Cart) : Int :=
  cart.foldl (fun sum item => sum + item.quantity) 0

/-- A call of one of the four mutating operations exposed by the cart context. -/
inductive CartOp where
  | add (product : Product) (quantity : Int)
  | remove (productId : String)
  | update (productId : String) (quantity : Int)
  | clear
  deriving DecidableEq, Repr

/-- The cart after one call. -/
def CartOp.apply (c : Cart) : CartOp → Cart
  | .add product quantity => addToCart c product quantity
  | .remove productId => removeFromCart c productId
  | .update productId quantity => updateQuantity c productId quantity
  | .clear => clearCart c

/-- The cart after a sequence of calls, applied in order to the cart `c`. -/
def runOps (ops : List CartOp) (c : Cart) : Cart :=
  ops.foldl CartOp.apply c

/-- The product ids of a cart, in order. -/
def productIds (c : Cart) : List String :=
  c.map (fun item => item.product_id)

/-- An `addToCart` call passes a quantity of at least one; the other calls are unrestricted. -/
def CartOp.addAtLeastOne : CartOp → Bool
  | .add _ quantity => decide (1 ≤ quantity)
  | _ => true

/-- The subtotal as the specification words it: the sum over all line items of
price times quantity, as the exact number with that value, recomputed from the
list without the accumulator loop and without rounding. -/
def sumPriceTimesQuantity (c : Cart) : JSNumber :=
  .finite ((c.map (fun item => item.price.units * item.quantity)).sum)

/-- Every price of the cart is a whole number, every quantity is below `2 ^ 53` in
absolute value, and the absolute values of price times quantity add up to less
than `2 ^ 53`: all numbers met by `getTotal()` are safe integers. -/
def wholeAndSafe (c : Cart) : Bool :=
  c.all (fun item => item.price.isWhole && decide (item.quantity.natAbs < 2 ^ 53)) &&
  decide ((c.map (fun item => (item.price.toInt * item.quantity).natAbs)).sum < 2 ^ 53)

/-- The item count as the specification words it: the sum of the quantities. -/
def sumQuantities (c : Cart) : Int :=
  (c.map (fun item => item.quantity)).sum

/-- The cart of the end-to-end example: unit prices 500 and 300, quantities 2 and 1. -/
def exampleCart : Cart :=
  [ { product_id := "p1", product_name := "Socks", quantity := 2, price := 500, image := none },
    { product_id := "p2", product_name := "Cap", quantity := 1, price := 300, image := none } ]

/-- The first line item of the example cart. -/
def exampleFirstItem : LineItem :=
  { product_id := "p1", product_name := "Socks", quantity := 2, price := 500, image := none }

/-- A cart of three pieces at the price `2 ^ 53 - 1`. -/
def largePriceCart : Cart :=
  [ { product_id := "g1", product_name := "Gem", quantity := 3, price := 9007199254740991,
      image := none } ]

/-- The calls that build the cart with the prices 0.1, 0.2 and 0.3. -/
def decimalOps : List CartOp :=
  [ CartOp.add { id := "d1", name := "Pin", price_inr := double 3602879701896397 (-55),
                 images := [] } 1,
    CartOp.add { id := "d2", name := "Clip", price_inr := double 3602879701896397 (-54),
                 images := [] } 1,
    CartOp.add { id := "d3", name := "Tag", price_inr := double 5404319552844595 (-54),
                 images := [] } 1 ]

/-- The first line item of the cart with the prices 199.99 and 49.95. -/
def jacketItem : LineItem :=
  { product_id := "j1", product_name := "Jacket", quantity := 1,
    price := double 879565321755689 (-42), image := none }

/-- A cart with the prices 199.99 and 49.95, one of each. -/
def jacketCart : Cart :=
  [ jacketItem,
    { product_id := "j2", product_name := "Scarf", quantity := 1,
      price := double 3514918771674317 (-46), image := none } ]

/-- A sample product. -/
def sampleProduct : Product :=
  { id := "p1", name := "Socks", price_inr := 500, images := ["socks.png"] }

/-- A second sample product. -/
def otherProduct : Product :=
  { id := "p2", name := "Cap", price_inr := 300, images := [] }

/-! ## Local storage and the persistence of the cart

`localStorage` is shared by the cart provider (key `cart`) and the session
provider (keys `token` and `user`). -/

/-- The browser's `localStorage`: a key is mapped to its stored string, or to
`null` (here `none`) when absent. -/
abbrev Storage := String → Option String

/-- The call `localStorage.getItem(key)`. -/
def getItem (storage : Storage) (key : String) : Option String :=
  storage key

/-- The call `localStorage.setItem(key, value)`. -/
def setItem (storage : Storage) (key value : String) : Storage :=
  fun k => if k = key then some value else storage k

/-- The call `localStorage.removeItem(key)`. -/
def removeItem (storage : Storage) (key : String) : Storage :=
  fun k => if k = key then none else storage k

/-- A storage without entries. -/
def emptyStorage : Storage :=
  fun _ => none

/-- JavaScript truthiness of a `getItem` result: `null` and the empty string are falsy. -/
def truthy : Option String → Bool
  | some text => text != ""
  | none => false

/-- The cart provider together with the storage it writes to. -/
structure CartState where
  cart : Cart
  storage : Storage

/-- The persist effect `useEffect(() => localStorage.setItem('cart', JSON.stringify(cart)), [cart])`.
`JSON.stringify` is a built-in and enters as the parameter `stringify`. -/
def persistCart (stringify : Cart → String) (cart : Cart) (storage : Storage) : Storage :=
  setItem storage "cart" (stringify cart)

/-- The synchronous body of a call: the cart handed to `setCart` and the storage
after the statements of the handler.  Only `clearCart` touches the storage
itself, with `localStorage.removeItem('cart')`. -/
def CartOp.handler (s : CartState) : CartOp → CartState
  | .add product quantity => { cart := addToCart s.cart product quantity, storage := s.storage }
  | .remove productId => { cart := removeFromCart s.cart productId, storage := s.storage }
  | .update productId quantity =>
    { cart := updateQuantity s.cart productId quantity, storage := s.storage }
  | .clear => { cart := clearCart s.cart, storage := removeItem s.storage "cart" }

/-- A completed call: the handler body, then the re-render with the new cart.
Every updater returns a fresh array (`map`, `filter`, a spread, or the literal
`[]`), so the dependency `[cart]` has changed and the persist effect runs. -/
def CartOp.run (stringify : Cart → String) (s : CartState) (op : CartOp) : CartState :=
  { cart := (op.handler s).cart
    storage := persistCart stringify (op.handler s).cart (op.handler s).storage }

/-- A sample serialisation of carts, used at concrete inputs: the quantities, in order. -/
def sampleStringify (cart : Cart) : String :=
  toString (cart.map (fun item => item.quantity))

/-! ## The session holder

Shallow embedding of `src/frontend/src/context/AuthContext.js`.  The remote API
(`api.get`, `api.post`) is outside the program: the response of a request
enters each function as an argument, and the requests that were sent are
recorded in the state. -/

/-- The profile object returned by the auth endpoints; `role` may be missing. -/
structure Profile where
  email : String
  full_name : String
  phone : String
  role : Option String
  deriving DecidableEq, Repr

/-- A request handed to `api`: its path and the values of its body. -/
structure Request where
  url : String
  body : List String
  deriving DecidableEq, Repr

/-- The session provider with what it acts on: the React state `user` and
`loading`, the local storage, the requests sent so far and the notifications
shown so far. -/
structure AuthState where
  user : Option Profile
  loading : Bool
  storage : Storage
  requests : List Request
  toasts : List String

/-- The state at mount: `useState(null)` and `useState(true)`, nothing sent or shown. -/
def initialAuthState (storage : Storage) : AuthState :=
  { user := none, loading := true, storage := storage, requests := [], toasts := [] }

/-- The `catch` block of `checkAuth`: both credentials are removed and the user is reset. -/
def evictCredentials (s : AuthState) : AuthState :=
  { s with
    storage := removeItem (removeItem s.storage "token") "user"
    user := none }

/-- Where `checkAuth` stands after its synchronous part: suspended at
`await api.get('/auth/me')`, or already returned. -/
inductive CheckAuthStep where
  | awaiting (s : AuthState)
  | settled (s : AuthState)

/-- The part of `checkAuth` up to the `await`.  `JSON.parse` is a built-in and enters
as `parseUser`: `none` when it throws, otherwise the parsed value, which is
`null` (`some none`) or a profile.  With a truthy token and a truthy cached
entry the parsed value becomes the user and the request is sent; a throwing
parse goes to the `catch` block; otherwise only `setLoading(false)` runs. -/
def checkAuthStart (parseUser : String → Option (Option Profile)) (s : AuthState) :
    CheckAuthStep :=
  match getItem s.storage "user" with
  | some savedUser =>
    if truthy (getItem s.storage "token") && truthy (some savedUser) then
      match parseUser savedUser with
      | some parsed =>
        .awaiting { s with user := parsed, requests := s.requests ++ [⟨"/auth/me", []⟩] }
      | none => .settled { evictCredentials s with loading := false }
    else
      .settled { s with loading := false }
  | none => .settled { s with loading := false }

/-- The part of `checkAuth` after the `await`: on a response `data` the user and the
cached entry are replaced, on a rejection the `catch` block runs; then
`setLoading(false)`. -/
def checkAuthFinish (stringifyUser : Profile → String) (s : AuthState)
    (response : Option Profile) : AuthState :=
  match response with
  | some data =>
    { s with
      user := some data
      storage := setItem s.storage "user" (stringifyUser data)
      loading := false }
  | none => { evictCredentials s with loading := false }

/-- The whole of `checkAuth`, given the answer of the server to `GET /auth/me`
(`none` when the request is rejected). -/
def checkAuth (parseUser : String → Option (Option Profile)) (stringifyUser : Profile → String)
    (response : Option Profile) (s : AuthState) : AuthState :=
  match checkAuthStart parseUser s with
  | .awaiting s1 => checkAuthFinish stringifyUser s1 response
  | .settled s1 => s1

/-- The payload of a successful auth response. -/
structure AuthData where
  access_token : String
  user : Profile
  deriving DecidableEq, Repr

/-- An error thrown by `api.post`; `detail` is `error.response?.data?.detail`. -/
structure ApiError where
  detail : Option String
  deriving DecidableEq, Repr

/-- The text `error.response?.data?.detail || fallback`. -/
def errorMessage (e : ApiError) (fallback : String) : String :=
  if truthy e.detail then e.detail.getD fallback else fallback

/-- The function `login(email, password)`: the new state and what the caller gets,
the user on success or the thrown error. -/
def login (stringifyUser : Profile → String) (s : AuthState) (email password : String)
    (response : Except ApiError AuthData) : AuthState × Except ApiError Profile :=
  match response with
  | .ok data =>
    ({ s with
       requests := s.requests ++ [⟨"/auth/login", [email, password]⟩]
       storage := setItem (setItem s.storage "token" data.access_token) "user"
         (stringifyUser data.user)
       user := some data.user
       toasts := s.toasts ++ ["Welcome back!"] },
     .ok data.user)
  | .error e =>
    ({ s with
       requests := s.requests ++ [⟨"/auth/login", [email, password]⟩]
       toasts := s.toasts ++ [errorMessage e "Login failed"] },
     .error e)

/-- The function `register(email, password, full_name, phone)`. -/
def register (stringifyUser : Profile → String) (s : AuthState)
    (email password full_name phone : String)
    (response : Except ApiError AuthData) : AuthState × Except ApiError Profile :=
  match response with
  | .ok data =>
    ({ s with
       requests := s.requests ++ [⟨"/auth/register", [email, password, full_name, phone]⟩]
       storage := setItem (setItem s.storage "token" data.access_token) "user"
         (stringifyUser data.user)
       user := some data.user
       toasts := s.toasts ++ ["Account created successfully!"] },
     .ok data.user)
  | .error e =>
    ({ s with
       requests := s.requests ++ [⟨"/auth/register", [email, password, full_name, phone]⟩]
       toasts := s.toasts ++ [errorMessage e "Registration failed"] },
     .error e)

/-- The function `logout()`. -/
def logout (s : AuthState) : AuthState :=
  { s with
    storage := removeItem (removeItem s.storage "token") "user"
    user := none
    toasts := s.toasts ++ ["Logged out successfully"] }

/-- The derived flag `isAdmin: user?.role === 'ADMIN'`. -/
def isAdmin (user : Option Profile) : Bool :=
  match user with
  | some profile => profile.role == some "ADMIN"
  | none => false

/-- A sample profile of a customer. -/
def aliceProfile : Profile :=
  { email := "alice@example.com", full_name := "Alice", phone := "100", role := some "USER" }

/-- A sample profile of an administrator. -/
def adminProfile : Profile :=
  { email := "root@example.com", full_name := "Root", phone := "200", role := some "ADMIN" }

/-- A sample serialisation of profiles, used at concrete inputs: the e-mail address. -/
def sampleStringifyUser (profile : Profile) : String :=
  profile.email

/-- A sample parser matching `sampleStringifyUser` on the two sample profiles; it
reads `null` as `null` and throws on any other text. -/
def sampleParseUser (text : String) : Option (Option Profile) :=
  if text = "alice@example.com" then some (some aliceProfile)
  else if text = "root@example.com" then some (some adminProfile)
  else if text = "null" then some none
  else none

/-- A storage holding a token and the cached profile of Alice, and a persisted cart. -/
def loggedInStorage : Storage :=
  setItem (setItem (setItem emptyStorage "cart" "[2, 1]") "token" "tok-1") "user"
    "alice@example.com"

/-- A storage holding a token but no cached profile. -/
def tokenOnlyStorage : Storage :=
  setItem emptyStorage "token" "tok-1"

/-! ## The discount popup

Shallow embedding of `src/frontend/src/components/DiscountPopup.js`.  The state
variable `dismissed` is a JavaScript `Set`, kept here as a list without
repetitions; a running timer is recorded with the id it will dismiss. -/

/-- A promotional popup as delivered by `GET /popups`. -/
structure Popup where
  id : String
  title : String
  message : String
  discount_code : Option String
  display_duration : Option Nat
  deriving DecidableEq, Repr

/-- The state of the popup component: `popups`, `currentPopup`, `dismissed`, and the
timers started by `setTimeout` (popup id and delay in milliseconds). -/
structure PopupState where
  popups : List Popup
  currentPopup : Option Popup
  dismissed : List String
  timers : List (String × Nat)
  deriving DecidableEq, Repr

/-- The state at mount: `useState([])`, `useState(null)`, `useState(new Set())`. -/
def initialPopupState : PopupState :=
  { popups := [], currentPopup := none, dismissed := [], timers := [] }

/-- The index `Math.floor(Math.random() * length)` for a value `random` of `Math.random()`. -/
def randomIndex (random : ℚ) (length : Nat) : Nat :=
  (⌊random * (length : ℚ)⌋).toNat

/-- The choice made by `showNextPopup`: the popups whose id is not in `dismissed` are
kept, and when there is one the popup at the random index is taken. -/
def chooseNextPopup (dismissed : List String) (popupList : List Popup) (random : ℚ) :
    Option Popup :=
  let availablePopups := popupList.filter (fun p => !dismissed.contains p.id)
  if availablePopups.length > 0 then
    availablePopups[randomIndex random availablePopups.length]?
  else
    none

/-- The delay `popup.display_duration || 5000`. -/
def dismissDelay (popup : Popup) : Nat :=
  match popup.display_duration with
  | some duration => if duration ≠ 0 then duration else 5000
  | none => 5000

/-- The function `showNextPopup(popupList)`: the chosen popup becomes the current one and
its auto-dismiss timer is started; with nothing to choose the state is kept. -/
def showNextPopup (s : PopupState) (popupList : List Popup) (random : ℚ) : PopupState :=
  match chooseNextPopup s.dismissed popupList random with
  | some popup =>
    { s with currentPopup := some popup, timers := s.timers ++ [(popup.id, dismissDelay popup)] }
  | none => s

/-- The function `handleDismiss(popupId)`: the id is added to the set and the current
popup is cleared. -/
def handleDismiss (s : PopupState) (popupId : String) : PopupState :=
  { s with
    dismissed := if s.dismissed.contains popupId then s.dismissed else s.dismissed ++ [popupId]
    currentPopup := none }

/-- The function `fetchPopups()`, given the answer of `GET /popups` (`none` when the
request fails, which is only logged). -/
def fetchPopups (s : PopupState) (response : Option (List Popup)) (random : ℚ) : PopupState :=
  match response with
  | some data =>
    if data.length > 0 then showNextPopup { s with popups := data } data random
    else { s with popups := data }
  | none => s

/-- What can happen to the popup component.  It is mounted, which is the only place
where `fetchPopups` runs (the effect with the dependencies `[]`), or a popup is
dismissed by the button or by its timer.  The component is rendered inside the
route `/*` of `App.js`: leaving for `/admin` unmounts it and coming back mounts
it again, with fresh state. -/
inductive PopupEvent where
  | mount (response : Option (List Popup)) (random : ℚ)
  | dismiss (popupId : String)

/-- The state after one event: a mount starts from the initial state and runs
`fetchPopups` with the answer of `GET /popups`. -/
def PopupEvent.step (s : PopupState) : PopupEvent → PopupState
  | .mount response random => fetchPopups initialPopupState response random
  | .dismiss popupId => handleDismiss s popupId

/-- The state after a sequence of events. -/
def runPopupEvents (events : List PopupEvent) (s : PopupState) : PopupState :=
  events.foldl PopupEvent.step s

/-- A sample popup. -/
def popupA : Popup :=
  { id := "a", title := "Sale", message := "Ten percent off", discount_code := some "TEN",
    display_duration := none }

/-- A second sample popup. -/
def popupB : Popup :=
  { id := "b", title := "Socks", message := "New socks", discount_code := none,
    display_duration := some 3000 }

/-! ## Checkout

Shallow embedding of `validateDiscount` and `handleSubmit` of
`src/frontend/src/pages/Checkout.js`; the answers of the two endpoints enter
as arguments. -/

/-- The shipping address form. -/
structure Address where
  full_name : String
  phone : String
  address_line : String
  city : String
  state : String
  pincode : String
  country : String
  deriving DecidableEq, Repr

/-- One entry of `orderData.items`. -/
structure OrderItem where
  product_id : String
  product_name : String
  quantity : Int
  price : JSNumber
  deriving DecidableEq, Repr

/-- The body posted to `/orders`. -/
structure OrderData where
  items : List OrderItem
  shipping_address : Address
  currency : String
  discount_code : Option String
  deriving DecidableEq, Repr

/-- The checkout page with what it acts on: the cart of the cart context, its own state
variables, the bodies posted to `/orders`, the notifications shown and the
target of `navigate`. -/
structure CheckoutState where
  cart : Cart
  loading : Bool
  discountCode : String
  discountAmount : JSNumber
  address : Address
  orders : List OrderData
  toasts : List String
  location : Option String
  deriving DecidableEq, Repr

/-- The value `text || ''` for an optional profile field. -/
def orEmpty (text : Option String) : String :=
  text.getD ""

/-- The state at mount for a cart and a user: no discount, the address prefilled from
the profile, the country preset. -/
def initialCheckoutState (cart : Cart) (user : Option Profile) : CheckoutState :=
  { cart := cart
    loading := false
    discountCode := ""
    discountAmount := 0
    address :=
      { full_name := orEmpty (user.map (fun profile => profile.full_name))
        phone := orEmpty (user.map (fun profile => profile.phone))
        address_line := "", city := "", state := "", pincode := "", country := "India" }
    orders := []
    toasts := []
    location := none }

/-- The value `finalTotal = getTotal() - discountAmount`. -/
def finalTotal (s : CheckoutState) : JSNumber :=
  (getTotal s.cart).sub s.discountAmount

/-- The code points that `String.prototype.trim` drops: the white space of ECMAScript
(tab, vertical tab, form feed, space, no-break space, the byte order mark and
the space separators of Unicode) and its line terminators (line feed, carriage
return, line separator, paragraph separator). -/
def trimmedCodePoints : List Nat :=
  [0x0009, 0x000A, 0x000B, 0x000C, 0x000D, 0x0020, 0x00A0, 0x1680, 0x2000, 0x2001, 0x2002,
   0x2003, 0x2004, 0x2005, 0x2006, 0x2007, 0x2008, 0x2009, 0x200A, 0x2028, 0x2029, 0x202F,
   0x205F, 0x3000, 0xFEFF]

/-- The character is dropped by `trim`. -/
def isTrimmed (c : Char) : Bool :=
  trimmedCodePoints.contains c.toNat

/-- The built-in `String.prototype.trim`: white space and line terminators are dropped at
both ends. -/
def trim (text : String) : String :=
  String.mk ((text.toList.dropWhile isTrimmed).reverse.dropWhile isTrimmed).reverse

/-- The function `validateDiscount()`, given the answer of the validation endpoint: the
discount amount on success, the error otherwise.  A code that is blank after
`trim()` returns at once; a failure shows the error and sets the amount to 0.
The conversion of a number to text in the template literal is a built-in and
enters as `showNumber`. -/
def validateDiscount (showNumber : JSNumber → String) (s : CheckoutState)
    (response : Except ApiError JSNumber) : CheckoutState :=
  if trim s.discountCode == "" then s
  else
    match response with
    | .ok discount_amount =>
      { s with
        discountAmount := discount_amount
        toasts := s.toasts ++ ["Discount applied: ₹" ++ showNumber discount_amount] }
    | .error e =>
      { s with
        toasts := s.toasts ++ [errorMessage e "Invalid discount code"]
        discountAmount := 0 }

/-- The object `orderData` built by `handleSubmit`; `discountCode || null` is `null`
(here `none`) for the empty string. -/
def buildOrderData (s : CheckoutState) : OrderData :=
  { items := s.cart.map (fun item =>
      { product_id := item.product_id
        product_name := item.product_name
        quantity := item.quantity
        price := item.price })
    shipping_address := s.address
    currency := "INR"
    discount_code := if s.discountCode != "" then some s.discountCode else none }

/-- The function `handleSubmit(e)`, given the answer of `POST /orders`: on success the
cart is cleared and the page navigates to the account, on failure the error is
shown; in both cases `loading` ends false. -/
def handleSubmit (s : CheckoutState) (response : Except ApiError Unit) : CheckoutState :=
  match response with
  | .ok _ =>
    { s with
      orders := s.orders ++ [buildOrderData s]
      cart := clearCart s.cart
      toasts := s.toasts ++ ["Order placed successfully!"]
      location := some "/account"
      loading := false }
  | .error e =>
    { s with
      orders := s.orders ++ [buildOrderData s]
      toasts := s.toasts ++ [errorMessage e "Order failed"]
      loading := false }

/-- The sum of price times quantity over the items of an order body, added up from left
to right in the arithmetic of JavaScript numbers. -/
def orderItemsTotal (items : List OrderItem) : JSNumber :=
  items.foldl (fun sum item => sum.add (item.price.mul (JSNumber.ofInt item.quantity))) 0

/-- The sum of price times quantity over the items of an order body as the exact number
with that value, without rounding. -/
def sumOrderItems (items : List OrderItem) : JSNumber :=
  .finite ((items.map (fun item => item.price.units * item.quantity)).sum)

/-- A sample conversion of numbers to text, used at concrete inputs. -/
def sampleShowNumber (x : JSNumber) : String :=
  match x with
  | .finite _ => toString x.toInt
  | .infinity negative => if negative then "-Infinity" else "Infinity"
  | .nan => "NaN"

/-- A sample address. -/
def sampleAddress : Address :=
  { full_name := "Alice", phone := "100", address_line := "1 Main Road", city := "Pune",
    state := "MH", pincode := "411001", country := "India" }

/-- A checkout of the example cart with the code `SAVE` applied for a discount of 100. -/
def discountedCheckout : CheckoutState :=
  { cart := exampleCart, loading := false, discountCode := "SAVE", discountAmount := 100,
    address := sampleAddress, orders := [], toasts := [], location := none }

/-- The same checkout with an entered code of a no-break space and a space. -/
def blankCodeCheckout : CheckoutState :=
  { discountedCheckout with discountCode := "\u00A0 " }

/-! ## The product page, the shop listing and the route guards -/

/-- A product object as delivered by the catalogue endpoints. -/
structure CatalogProduct where
  id : String
  name : String
  description : String
  category : String
  price_inr : Int
  stock : Int
  images : List String
  deriving DecidableEq, Repr

/-- The part of a catalogue product that `addToCart` reads. -/
def CatalogProduct.toProduct (p : CatalogProduct) : Product :=
  { id := p.id, name := p.name, price_inr := JSNumber.ofInt p.price_inr, images := p.images }

/-- An action on the quantity selector of `src/frontend/src/pages/ProductDetail.js`: the
minus button, the plus button, or a typed value with the result of `parseInt`
on it (`none` for `NaN`). -/
inductive SelectorAction where
  | decrement
  | increment
  | typed (parsed : Option Int)
  deriving DecidableEq, Repr

/-- The value `parseInt(e.target.value) || 1`: `NaN` and 0 are falsy. -/
def parsedOrOne (parsed : Option Int) : Int :=
  match parsed with
  | some value => if value ≠ 0 then value else 1
  | none => 1

/-- The argument of `setQuantity` in the three handlers of the selector:
`Math.max(1, quantity - 1)`, `Math.min(product.stock, quantity + 1)` and
`Math.max(1, Math.min(product.stock, parseInt(e.target.value) || 1))`. -/
def SelectorAction.step (stock : Int) (quantity : Int) : SelectorAction → Int
  | .decrement => max 1 (quantity - 1)
  | .increment => min stock (quantity + 1)
  | .typed parsed => max 1 (min stock (parsedOrOne parsed))

/-- The selected quantity after a sequence of actions, from the initial `useState(1)`. -/
def selectedQuantity (stock : Int) (actions : List SelectorAction) : Int :=
  actions.foldl (SelectorAction.step stock) 1

/-- A click on the add-to-cart button, which is disabled for `product.stock === 0` and
otherwise runs `handleAddToCart`, that is `addToCart(product, quantity)`. -/
def clickAddToCart (cart : Cart) (product : CatalogProduct) (quantity : Int) : Cart :=
  if product.stock = 0 then cart else addToCart cart product.toProduct quantity

/-- The built-in `String.prototype.includes`: `query` occurs in `text`. -/
def includes (text query : String) : Bool :=
  text.toList.tails.any (fun rest => query.toList.isPrefixOf rest)

/-- The built-in `Array.prototype.sort(compare)`, taken as the stable sort that puts `a`
before `b` when `compare(a, b) <= 0`. -/
def sortBy {α : Type} (compare : α → α → Int) (items : List α) : List α :=
  items.insertionSort (fun a b => compare a b ≤ 0)

/-- The comparator of `filterAndSortProducts`; `localeCompare` is a built-in and enters
as a parameter. -/
def compareProducts (localeCompare : String → String → Int) (sortKey : String)
    (a b : CatalogProduct) : Int :=
  if sortKey = "price-low" then a.price_inr - b.price_inr
  else if sortKey = "price-high" then b.price_inr - a.price_inr
  else localeCompare a.name b.name

/-- The state of the shop page. -/
structure ShopState where
  products : List CatalogProduct
  filteredProducts : List CatalogProduct
  searchQuery : String
  selectedCategory : String
  sortKey : String
  deriving DecidableEq, Repr

/-- The list computed by `filterAndSortProducts` from a copy of `products`: the category
filter unless the category is `all`, the search filter unless the query is
empty, then the sort.  `toLowerCase` is a built-in and enters as a parameter. -/
def filterAndSort (toLowerCase : String → String) (localeCompare : String → String → Int)
    (products : List CatalogProduct) (searchQuery selectedCategory sortKey : String) :
    List CatalogProduct :=
  let byCategory :=
    if selectedCategory != "all" then
      products.filter (fun p => p.category == selectedCategory)
    else products
  let bySearch :=
    if searchQuery != "" then
      byCategory.filter (fun p =>
        includes (toLowerCase p.name) (toLowerCase searchQuery) ||
        includes (toLowerCase p.description) (toLowerCase searchQuery))
    else byCategory
  sortBy (compareProducts localeCompare sortKey) bySearch

/-- The function `filterAndSortProducts()`: the computed list is stored with
`setFilteredProducts`; `products` is only read. -/
def filterAndSortProducts (toLowerCase : String → String)
    (localeCompare : String → String → Int) (s : ShopState) : ShopState :=
  { s with
    filteredProducts :=
      filterAndSort toLowerCase localeCompare s.products s.searchQuery s.selectedCategory
        s.sortKey }

/-- The selection as the specification words it: the category equals the selected one,
or the selected one is `all`; and the query is empty, or the name or the
description contains it, letter case ignored. -/
def shopMatches (toLowerCase : String → String) (searchQuery selectedCategory : String)
    (p : CatalogProduct) : Bool :=
  (selectedCategory == "all" || p.category == selectedCategory) &&
  (searchQuery == "" ||
    includes (toLowerCase p.name) (toLowerCase searchQuery) ||
    includes (toLowerCase p.description) (toLowerCase searchQuery))

/-- What a route guard of `src/frontend/src/App.js` renders. -/
inductive RouteView where
  | spinner
  | redirect (target : String)
  | children
  deriving DecidableEq, Repr

/-- The component `ProtectedRoute`. -/
def protectedRoute (user : Option Profile) (loading : Bool) : RouteView :=
  if loading then .spinner
  else if user.isNone then .redirect "/login"
  else .children

/-- The component `AdminRoute`, with `isAdmin` as delivered by the context. -/
def adminRoute (user : Option Profile) (admin : Bool) (loading : Bool) : RouteView :=
  if loading then .spinner
  else if user.isNone || !admin then .redirect "/"
  else .children

/-- The component `AdminRoute` on a session state, where the context delivers
`isAdmin: user?.role === 'ADMIN'`. -/
def adminRouteOf (s : AuthState) : RouteView :=
  adminRoute s.user (isAdmin s.user) s.loading

/-- The component `ProtectedRoute` on a session state. -/
def protectedRouteOf (s : AuthState) : RouteView :=
  protectedRoute s.user s.loading

/-- A product whose stock has fallen below zero. -/
def oversoldProduct : CatalogProduct :=
  { id := "p3", name := "Ankle socks", description := "Thin", category := "socks",
    price_inr := 200, stock := -1, images := [] }

/-- A sample `toLowerCase`: the letters A to Z are lowered. -/
def sampleLower (text : String) : String :=
  String.mk (text.toList.map Char.toLower)

/-- A sample catalogue of three products. -/
def sampleCatalog : List CatalogProduct :=
  [ { id := "p1", name := "Wool Socks", description := "Warm", category := "socks",
      price_inr := 500, stock := 3, images := [] },
    { id := "p2", name := "Cap", description := "Blue cap with SOCKS print", category := "caps",
      price_inr := 300, stock := 0, images := [] },
    { id := "p3", name := "Ankle socks", description := "Thin", category := "socks",
      price_inr := 200, stock := -1, images := [] } ]

/-! ## The arithmetic of JavaScript numbers on safe integers -/

theorem bitLengthAux_le (fuel n k : Nat) (h : n < 2 ^ k) : bitLengthAux fuel n ≤ k := by
  induction fuel generalizing n k with
  | zero => exact Nat.zero_le _
  | succ fuel ih =>
    unfold bitLengthAux
    by_cases hn : n = 0
    · simp [hn]
    · rw [if_neg hn]
      cases k with
      | zero => simp at h; exact absurd h hn
      | succ k =>
        have hhalf : n / 2 < 2 ^ k := by
          rw [Nat.div_lt_iff_lt_mul (by decide)]
          rw [pow_succ] at h
          exact h
        have := ih (n / 2) k hhalf
        omega

theorem bitLength_le (n k : Nat) (h : n < 2 ^ k) : bitLength n ≤ k :=
  bitLengthAux_le n n k h

theorem lt_pow_bitLengthAux (fuel n : Nat) (h : n ≤ fuel) : n < 2 ^ bitLengthAux fuel n := by
  induction fuel generalizing n with
  | zero =>
    have : n = 0 := by omega
    subst this
    simp [bitLengthAux]
  | succ fuel ih =>
    unfold bitLengthAux
    by_cases hn : n = 0
    · simp [hn]
    · rw [if_neg hn]
      have hhalf : n / 2 ≤ fuel := by omega
      have := ih (n / 2) hhalf
      rw [pow_succ]
      omega

theorem lt_pow_bitLength (n : Nat) : n < 2 ^ bitLength n :=
  lt_pow_bitLengthAux n n (le_refl n)

theorem roundQuotient_exact (n shift : Nat) (h : 2 ^ shift ∣ n) :
    roundQuotient n shift = n / 2 ^ shift := by
  unfold roundQuotient
  have hr : n % 2 ^ shift = 0 := Nat.mod_eq_zero_of_dvd h
  have hpos : 0 < 2 ^ (shift - 1) := Nat.two_pow_pos _
  rw [if_neg]
  rw [hr]
  omega

theorem roundMagnitude_exact (n minShift c d : Nat) (hn : n = c * 2 ^ (minShift + d))
    (hc : c < 2 ^ 53) : roundMagnitude n minShift = c * 2 ^ d := by
  have hlt : n < 2 ^ (53 + (minShift + d)) := by
    rw [hn, pow_add 2 53]
    exact Nat.mul_lt_mul_of_lt_of_le hc (le_refl _) (Nat.two_pow_pos _)
  have hbl := bitLength_le n (53 + (minShift + d)) hlt
  have hshift : roundShift n minShift ≤ minShift + d := by
    unfold roundShift
    exact max_le (by omega) (by omega)
  have hmin : minShift ≤ roundShift n minShift := by
    unfold roundShift
    exact le_max_right _ _
  have key : ∀ t : Nat, minShift ≤ t → t ≤ minShift + d →
      roundQuotient n t * 2 ^ (t - minShift) = c * 2 ^ d := by
    intro t hmt hts
    have hsplit : n = c * 2 ^ (minShift + d - t) * 2 ^ t := by
      rw [hn, mul_assoc, ← pow_add]
      congr 2
      omega
    have hdvd : 2 ^ t ∣ n := ⟨c * 2 ^ (minShift + d - t), by rw [hsplit]; ring⟩
    rw [roundQuotient_exact n t hdvd]
    have hdiv : n / 2 ^ t = c * 2 ^ (minShift + d - t) := by
      rw [hsplit]
      exact Nat.mul_div_cancel _ (Nat.two_pow_pos _)
    rw [hdiv, mul_assoc, ← pow_add]
    congr 2
    omega
  unfold roundMagnitude
  exact key _ hmin hshift

theorem pack_finite (negative : Bool) (units : Nat) (h : units < 2 ^ 2098) :
    pack negative units = .finite (if negative then -(units : Int) else (units : Int)) := by
  unfold pack
  rw [if_neg (by omega)]

theorem unitsPerOne_pos : 0 < unitsPerOne :=
  Nat.two_pow_pos _

theorem whole_lt (c : Nat) (hc : c < 2 ^ 53) : c * unitsPerOne < 2 ^ 2098 := by
  have h1 : c * unitsPerOne < 2 ^ 53 * 2 ^ 1074 :=
    Nat.mul_lt_mul_of_lt_of_le hc (le_refl _) (Nat.two_pow_pos _)
  have h2 : (2 : Nat) ^ 53 * 2 ^ 1074 ≤ 2 ^ 2098 := by
    rw [← pow_add]
    exact Nat.pow_le_pow_right (by decide) (by decide)
  omega

theorem decide_mul_neg (k : Int) : decide (k * (unitsPerOne : Int) < 0) = decide (k < 0) := by
  have hpos : (0 : Int) < unitsPerOne := by exact_mod_cast unitsPerOne_pos
  by_cases hk : k < 0
  · rw [decide_eq_true hk, decide_eq_true (Int.mul_neg_of_neg_of_pos hk hpos)]
  · have : ¬ k * (unitsPerOne : Int) < 0 := by
      push_neg at hk ⊢
      exact Int.mul_nonneg hk (le_of_lt hpos)
    rw [decide_eq_false hk, decide_eq_false this]

theorem pack_whole (negative : Bool) (k : Int) (hk : k.natAbs < 2 ^ 53)
    (hsign : (if negative then -((k.natAbs : Nat) : Int) else ((k.natAbs : Nat) : Int)) = k) :
    pack negative (k.natAbs * unitsPerOne) = .finite (k * unitsPerOne) := by
  rw [pack_finite _ _ (whole_lt _ hk)]
  cases negative
  · simp only [Bool.false_eq_true, if_false] at hsign ⊢
    rw [Nat.cast_mul, hsign]
  · simp only [if_true] at hsign ⊢
    rw [Nat.cast_mul, ← neg_mul, hsign]

theorem sign_natAbs (k : Int) :
    (if decide (k < 0) = true then -((k.natAbs : Nat) : Int) else ((k.natAbs : Nat) : Int)) = k := by
  by_cases h : k < 0
  · rw [decide_eq_true h, if_pos rfl, Int.ofNat_natAbs_of_nonpos (le_of_lt h), neg_neg]
  · rw [decide_eq_false h, if_neg (by decide), Int.natAbs_of_nonneg (not_lt.mp h)]

theorem sign_natAbs_mul (p q : Int) :
    (if (decide (p < 0) != decide (q < 0)) = true then -(((p * q).natAbs : Nat) : Int)
      else (((p * q).natAbs : Nat) : Int)) = p * q := by
  by_cases hp : p < 0 <;> by_cases hq : q < 0
  · have hpq : 0 ≤ p * q := by nlinarith
    simp only [decide_eq_true hp, decide_eq_true hq, bne_self_eq_false, Bool.false_eq_true,
      if_false]
    exact Int.natAbs_of_nonneg hpq
  · have hpq : p * q ≤ 0 := by nlinarith
    rw [decide_eq_true hp, decide_eq_false hq, if_pos (by decide),
      Int.ofNat_natAbs_of_nonpos hpq, neg_neg]
  · have hpq : p * q ≤ 0 := by nlinarith
    rw [decide_eq_false hp, decide_eq_true hq, if_pos (by decide),
      Int.ofNat_natAbs_of_nonpos hpq, neg_neg]
  · have hpq : 0 ≤ p * q := by nlinarith
    simp only [decide_eq_false hp, decide_eq_false hq, bne_self_eq_false, Bool.false_eq_true,
      if_false]
    exact Int.natAbs_of_nonneg hpq

theorem ofInt_exact (k : Int) (hk : k.natAbs < 2 ^ 53) :
    JSNumber.ofInt k = .finite (k * unitsPerOne) := by
  unfold JSNumber.ofInt
  rw [roundMagnitude_exact (k.natAbs * unitsPerOne) 0 k.natAbs 1074 (by rw [Nat.zero_add]; rfl)
    hk]
  exact pack_whole _ k hk (sign_natAbs k)

theorem add_whole (a b : Int) (h : (a + b).natAbs < 2 ^ 53) :
    (JSNumber.finite (a * unitsPerOne)).add (.finite (b * unitsPerOne)) =
      .finite ((a + b) * unitsPerOne) := by
  show pack _ (roundMagnitude _ 0) = _
  have hsum : a * (unitsPerOne : Int) + b * unitsPerOne = (a + b) * unitsPerOne := by ring
  have habs : ((a + b) * (unitsPerOne : Int)).natAbs = (a + b).natAbs * unitsPerOne := by
    rw [Int.natAbs_mul, Int.natAbs_ofNat]
  rw [hsum, habs, decide_mul_neg,
    roundMagnitude_exact ((a + b).natAbs * unitsPerOne) 0 (a + b).natAbs 1074
      (by rw [Nat.zero_add]; rfl) h]
  exact pack_whole _ (a + b) h (sign_natAbs (a + b))

theorem mul_whole (p q : Int) (h : (p * q).natAbs < 2 ^ 53) :
    (JSNumber.finite (p * unitsPerOne)).mul (.finite (q * unitsPerOne)) =
      .finite (p * q * unitsPerOne) := by
  show pack _ (roundMagnitude _ 1074) = _
  have hn : (p * (unitsPerOne : Int)).natAbs * (q * (unitsPerOne : Int)).natAbs =
      (p * q).natAbs * 2 ^ (1074 + 1074) := by
    rw [Int.natAbs_mul, Int.natAbs_mul, Int.natAbs_mul, Int.natAbs_ofNat, pow_add]
    unfold unitsPerOne
    ring
  rw [roundMagnitude_exact _ 1074 (p * q).natAbs 1074 hn h, decide_mul_neg, decide_mul_neg]
  exact pack_whole _ (p * q) h (sign_natAbs_mul p q)

theorem roundQuotient_le (n shift : Nat) : roundQuotient n shift ≤ n / 2 ^ shift + 1 := by
  unfold roundQuotient
  split <;> omega

theorem roundMagnitude_representable (n : Nat) :
    ∃ c d : Nat, roundMagnitude n 0 = c * 2 ^ d ∧ c < 2 ^ 53 := by
  have hbl : bitLength n ≤ 53 + roundShift n 0 := by
    unfold roundShift
    have := le_max_left (bitLength n - 53) 0
    omega
  have hn : n < 2 ^ 53 * 2 ^ roundShift n 0 := by
    rw [← pow_add]
    exact lt_of_lt_of_le (lt_pow_bitLength n) (Nat.pow_le_pow_right (by decide) hbl)
  have hq : n / 2 ^ roundShift n 0 < 2 ^ 53 :=
    (Nat.div_lt_iff_lt_mul (Nat.two_pow_pos _)).mpr hn
  have hle := roundQuotient_le n (roundShift n 0)
  unfold roundMagnitude
  rw [Nat.sub_zero]
  by_cases hlt : roundQuotient n (roundShift n 0) < 2 ^ 53
  · exact ⟨_, _, rfl, hlt⟩
  · have heq : roundQuotient n (roundShift n 0) = 2 ^ 53 := by omega
    refine ⟨2 ^ 52, roundShift n 0 + 1, ?_, by decide⟩
    rw [heq, pow_succ]
    ring

theorem add_zero_pack (negative : Bool) (n : Nat) :
    (pack negative (roundMagnitude n 0)).add (.finite 0) = pack negative (roundMagnitude n 0) := by
  obtain ⟨c, d, hm, hc⟩ := roundMagnitude_representable n
  generalize roundMagnitude n 0 = m at hm
  by_cases hbig : 2 ^ 2098 ≤ m
  · unfold pack
    rw [if_pos hbig]
    rfl
  · have hsmall : m < 2 ^ 2098 := by omega
    rw [pack_finite negative m hsmall]
    have habs : (if negative = true then -(m : Int) else (m : Int)).natAbs = m := by
      cases negative
      · exact Int.natAbs_ofNat m
      · simp only [if_true]
        rw [Int.natAbs_neg]
        exact Int.natAbs_ofNat m
    generalize (if negative = true then -(m : Int) else (m : Int)) = v at habs
    show pack (decide (v + 0 < 0)) (roundMagnitude (v + 0).natAbs 0) = _
    rw [Int.add_zero, habs,
      roundMagnitude_exact m 0 c d (by rw [Nat.zero_add]; exact hm) hc, ← hm,
      pack_finite _ m hsmall]
    have hsign := sign_natAbs v
    rw [habs] at hsign
    rw [hsign]

theorem add_stable (x y : JSNumber) : (x.add y).add (.finite 0) = x.add y := by
  cases x with
  | finite a =>
    cases y with
    | finite b => exact add_zero_pack _ _
    | infinity t => rfl
    | nan => rfl
  | infinity s =>
    cases y with
    | finite b => rfl
    | infinity t => by_cases h : s = t <;> simp [JSNumber.add, h]
    | nan => rfl
  | nan => cases y <;> rfl

theorem zero_eq_finite : (0 : JSNumber) = .finite 0 := by
  decide!

theorem sub_zero_of_stable (x : JSNumber) (h : x.add (.finite 0) = x) : x.sub 0 = x := by
  rw [zero_eq_finite]
  show x.add (.finite (-0)) = x
  rw [Int.neg_zero]
  exact h

theorem whole_price (x : JSNumber) (h : x.isWhole = true) :
    x = .finite (x.toInt * unitsPerOne) ∧ x.units = x.toInt * unitsPerOne := by
  cases x with
  | finite a =>
    have hmod : a % (unitsPerOne : Int) = 0 := by
      simpa [JSNumber.isWhole] using h
    have hdvd : (unitsPerOne : Int) ∣ a := Int.dvd_of_emod_eq_zero hmod
    have hval : a / (unitsPerOne : Int) * unitsPerOne = a := Int.ediv_mul_cancel hdvd
    exact ⟨by show JSNumber.finite a = .finite (a / (unitsPerOne : Int) * unitsPerOne); rw [hval],
      hval.symm⟩
  | infinity s => cases h
  | nan => cases h

/-! ## Auxiliary facts about the updaters -/

theorem find?_absent (c : Cart) (id : String) (h : ∀ it ∈ c, it.product_id ≠ id) :
    c.find? (fun item => item.product_id == id) = none := by
  rw [List.find?_eq_none]
  intro it hit
  simpa using h it hit

theorem addToCart_absent (c : Cart) (p : Product) (q : Int)
    (h : ∀ it ∈ c, it.product_id ≠ p.id) :
    addToCart c p q = c ++ [newLineItem p q] := by
  unfold addToCart
  rw [find?_absent c p.id h]

theorem addToCart_present (c : Cart) (p : Product) (q : Int)
    (h : ∃ it ∈ c, it.product_id = p.id) :
    addToCart c p q =
      c.map (fun item =>
        if item.product_id == p.id
        then { item with quantity := item.quantity + q }
        else item) := by
  unfold addToCart
  cases hf : c.find? (fun item => item.product_id == p.id) with
  | some x => rfl
  | none =>
    exfalso
    rw [List.find?_eq_none] at hf
    obtain ⟨it, hit, hid⟩ := h
    exact hf it hit (by simpa using hid)

theorem map_absent (c : Cart) (id : String) (f : LineItem → LineItem)
    (h : ∀ it ∈ c, it.product_id ≠ id) :
    c.map (fun item => if item.product_id == id then f item else item) = c := by
  induction c with
  | nil => rfl
  | cons a t ih =>
    have ha : a.product_id ≠ id := h a (List.mem_cons_self _ _)
    have ht : ∀ it ∈ t, it.product_id ≠ id := fun it hit => h it (List.mem_cons_of_mem _ hit)
    rw [List.map_cons, ih ht]
    simp [ha]

theorem productIds_map_quantity (c : Cart) (id : String) (g : LineItem → Int) :
    productIds (c.map (fun item =>
      if item.product_id == id then { item with quantity := g item } else item)) =
    productIds c := by
  unfold productIds
  rw [List.map_map]
  apply List.map_congr_left
  intro it _
  by_cases hid : it.product_id = id <;> simp [hid]

theorem productIds_removeFromCart (c : Cart) (id : String) :
    productIds (removeFromCart c id) = (productIds c).filter (fun x => x != id) := by
  unfold productIds removeFromCart
  induction c with
  | nil => rfl
  | cons a t ih =>
    by_cases ha : a.product_id = id <;> simp [List.filter_cons, ha, ih]

theorem nodup_addToCart (c : Cart) (p : Product) (q : Int) (h : (productIds c).Nodup) :
    (productIds (addToCart c p q)).Nodup := by
  by_cases hp : ∃ it ∈ c, it.product_id = p.id
  · rw [addToCart_present c p q hp, productIds_map_quantity c p.id (fun item => item.quantity + q)]
    exact h
  · have habs : ∀ it ∈ c, it.product_id ≠ p.id := fun it hit hid => hp ⟨it, hit, hid⟩
    rw [addToCart_absent c p q habs]
    unfold productIds at h ⊢
    rw [List.map_append, List.nodup_append]
    refine ⟨h, by simp, ?_⟩
    intro x hx hx2
    simp only [List.map_cons, List.map_nil, List.mem_singleton] at hx2
    rw [List.mem_map] at hx
    obtain ⟨it, hit, rfl⟩ := hx
    exact habs it hit hx2

theorem nodup_removeFromCart (c : Cart) (id : String) (h : (productIds c).Nodup) :
    (productIds (removeFromCart c id)).Nodup := by
  rw [productIds_removeFromCart]
  exact h.filter _

theorem nodup_updateQuantity (c : Cart) (id : String) (q : Int) (h : (productIds c).Nodup) :
    (productIds (updateQuantity c id q)).Nodup := by
  unfold updateQuantity
  split
  · exact nodup_removeFromCart c id h
  · rw [productIds_map_quantity c id (fun _ => q)]
    exact h

theorem nodup_apply (c : Cart) (op : CartOp) (h : (productIds c).Nodup) :
    (productIds (op.apply c)).Nodup := by
  cases op with
  | add product quantity => exact nodup_addToCart c product quantity h
  | remove productId => exact nodup_removeFromCart c productId h
  | update productId quantity => exact nodup_updateQuantity c productId quantity h
  | clear => exact List.nodup_nil

theorem nodup_runOps (ops : List CartOp) (c : Cart) (h : (productIds c).Nodup) :
    (productIds (runOps ops c)).Nodup := by
  induction ops generalizing c with
  | nil => exact h
  | cons op rest ih => exact ih (op.apply c) (nodup_apply c op h)

/-! ## Adding products -/

/-- C1: on a cart holding no line item for product `p`, `addToCart(p, q1)` followed by
`addToCart(p, q2)` leaves exactly one line item whose `product_id` is `p.id`, and
the quantity of that item is `q1 + q2`. -/
theorem addToCart_twice_merges (c : Cart) (p : Product) (q1 q2 : Int)
    (h : ∀ it ∈ c, it.product_id ≠ p.id) :
    ((addToCart (addToCart c p q1) p q2).filter (fun it => it.product_id == p.id)).map
      (fun it => it.quantity) = [q1 + q2] := by
  have hmem : ∃ it ∈ c ++ [newLineItem p q1], it.product_id = p.id :=
    ⟨newLineItem p q1, by simp, rfl⟩
  have hfil : c.filter (fun it => it.product_id == p.id) = [] := by
    rw [List.filter_eq_nil_iff]
    intro it hit
    simpa using h it hit
  rw [addToCart_absent c p q1 h, addToCart_present _ p q2 hmem, List.map_append,
    map_absent c p.id _ h, List.filter_append, hfil]
  simp [newLineItem]

/-- C1 at the quantities of the specification: 2 and then 3 give one line item of quantity 5. -/
theorem addToCart_twice_merges_witness :
    (∀ it ∈ exampleCart.tail, it.product_id ≠ sampleProduct.id) ∧
    ((addToCart (addToCart exampleCart.tail sampleProduct 2) sampleProduct 3).filter
      (fun it => it.product_id == sampleProduct.id)).map (fun it => it.quantity) = [2 + 3] :=
  ⟨by decide, addToCart_twice_merges exampleCart.tail sampleProduct 2 3 (by decide)⟩

/-- C2: when no line item of the cart has the product's id, `addToCart(product, quantity)`
returns the cart with one line item appended at the end, the earlier items
untouched and in order; the new item carries the product's id, the given
quantity, the product's price and the product's first image. -/
theorem addToCart_appends_new_item (c : Cart) (product : Product) (quantity : Int)
    (h : ∀ it ∈ c, it.product_id ≠ product.id) :
    ∃ item : LineItem,
      addToCart c product quantity = c ++ [item] ∧
      item.product_id = product.id ∧
      item.quantity = quantity ∧
      item.price = product.price_inr ∧
      item.image = product.images[0]? :=
  ⟨newLineItem product quantity, addToCart_absent c product quantity h, rfl, rfl, rfl, rfl⟩

/-- C2 on the example cart without its first item, adding the first sample product. -/
theorem addToCart_appends_new_item_witness :
    (∀ it ∈ exampleCart.tail, it.product_id ≠ sampleProduct.id) ∧
    ∃ item : LineItem,
      addToCart exampleCart.tail sampleProduct 4 = exampleCart.tail ++ [item] ∧
      item.product_id = sampleProduct.id ∧
      item.quantity = 4 ∧
      item.price = sampleProduct.price_inr ∧
      item.image = sampleProduct.images[0]? :=
  ⟨by decide, addToCart_appends_new_item exampleCart.tail sampleProduct 4 (by decide)⟩

/-! ## The uniqueness invariant -/

/-- C3: if no two line items of a cart share a `product_id`, the same holds after any
`addToCart`, `updateQuantity`, `removeFromCart` or `clearCart` call; hence every cart
reachable from the empty cart has pairwise distinct product ids. -/
theorem product_ids_stay_distinct :
    (∀ (c : Cart) (op : CartOp), (productIds c).Nodup → (productIds (op.apply c)).Nodup) ∧
    (∀ ops : List CartOp, (productIds (runOps ops [])).Nodup) :=
  ⟨nodup_apply, fun ops => nodup_runOps ops [] List.nodup_nil⟩

/-- C3 on the example cart, adding a product that is already present. -/
theorem product_ids_stay_distinct_witness :
    (productIds exampleCart).Nodup ∧
    (productIds ((CartOp.add sampleProduct 3).apply exampleCart)).Nodup :=
  ⟨by decide, product_ids_stay_distinct.1 exampleCart (CartOp.add sampleProduct 3) (by decide)⟩

/-! ## The quantity invariant -/

theorem quantities_addToCart (c : Cart) (p : Product) (q : Int) (hq : 1 ≤ q)
    (h : ∀ it ∈ c, 1 ≤ it.quantity) : ∀ it ∈ addToCart c p q, 1 ≤ it.quantity := by
  by_cases hp : ∃ it ∈ c, it.product_id = p.id
  · rw [addToCart_present c p q hp]
    intro it hit
    rw [List.mem_map] at hit
    obtain ⟨x, hx, rfl⟩ := hit
    have hx1 := h x hx
    split
    · show 1 ≤ x.quantity + q
      omega
    · exact hx1
  · have habs : ∀ it ∈ c, it.product_id ≠ p.id := fun it hit hid => hp ⟨it, hit, hid⟩
    rw [addToCart_absent c p q habs]
    intro it hit
    rw [List.mem_append, List.mem_singleton] at hit
    rcases hit with hit | rfl
    · exact h it hit
    · exact hq

theorem quantities_removeFromCart (c : Cart) (id : String)
    (h : ∀ it ∈ c, 1 ≤ it.quantity) : ∀ it ∈ removeFromCart c id, 1 ≤ it.quantity :=
  fun it hit => h it (List.mem_of_mem_filter hit)

theorem quantities_updateQuantity (c : Cart) (id : String) (q : Int)
    (h : ∀ it ∈ c, 1 ≤ it.quantity) : ∀ it ∈ updateQuantity c id q, 1 ≤ it.quantity := by
  unfold updateQuantity
  split
  · exact quantities_removeFromCart c id h
  · rename_i hq
    intro it hit
    rw [List.mem_map] at hit
    obtain ⟨x, hx, rfl⟩ := hit
    split
    · show 1 ≤ q
      omega
    · exact h x hx

theorem quantities_apply (c : Cart) (op : CartOp) (hop : op.addAtLeastOne = true)
    (h : ∀ it ∈ c, 1 ≤ it.quantity) : ∀ it ∈ op.apply c, 1 ≤ it.quantity := by
  cases op with
  | add product quantity =>
    exact quantities_addToCart c product quantity (by simpa [CartOp.addAtLeastOne] using hop) h
  | remove productId => exact quantities_removeFromCart c productId h
  | update productId quantity => exact quantities_updateQuantity c productId quantity h
  | clear => intro it hit; cases hit

theorem quantities_runOps (ops : List CartOp) (c : Cart)
    (hops : ∀ op ∈ ops, op.addAtLeastOne = true)
    (h : ∀ it ∈ c, 1 ≤ it.quantity) : ∀ it ∈ runOps ops c, 1 ≤ it.quantity := by
  induction ops generalizing c with
  | nil => exact h
  | cons op rest ih =>
    exact ih (op.apply c) (fun o ho => hops o (List.mem_cons_of_mem _ ho))
      (quantities_apply c op (hops op (List.mem_cons_self _ _)) h)

/-- C4, as stated, fails: the single call `addToCart(p, 0)` on the empty cart stores a
line item of quantity 0. -/
theorem quantity_invariant_fails :
    ¬ ∀ ops : List CartOp, ∀ it ∈ runOps ops [], 1 ≤ it.quantity := by
  intro h
  exact absurd (h [CartOp.add sampleProduct 0] (newLineItem sampleProduct 0)
    (List.mem_singleton.mpr rfl))
    (by decide)

/-- C4, amended: for every cart reachable from the empty cart by a sequence of calls in
which each `addToCart` passes a quantity of at least one (the arguments of
`updateQuantity` are arbitrary integers), every line item has quantity at least one. -/
theorem quantity_invariant_of_positive_adds (ops : List CartOp)
    (hops : ∀ op ∈ ops, op.addAtLeastOne = true) :
    ∀ it ∈ runOps ops [], 1 ≤ it.quantity :=
  quantities_runOps ops [] hops (fun _ hit => by cases hit)

/-- C4, amended, on a run that adds twice, lowers a quantity to zero and sets another. -/
theorem quantity_invariant_of_positive_adds_witness :
    (∀ op ∈ [CartOp.add sampleProduct 2, CartOp.add otherProduct 1, CartOp.update "p1" 0,
        CartOp.update "p2" 7], op.addAtLeastOne = true) ∧
    ∀ it ∈ runOps [CartOp.add sampleProduct 2, CartOp.add otherProduct 1, CartOp.update "p1" 0,
        CartOp.update "p2" 7] [], 1 ≤ it.quantity :=
  ⟨by decide, quantity_invariant_of_positive_adds _ (by decide)⟩

/-! ## Updating and removing -/

/-- C5: for a quantity `q ≤ 0`, `updateQuantity(id, q)` produces the same cart as
`removeFromCart(id)`: no item with that id is left, and the result consists of
items of the old cart in their old order, so `q` is stored nowhere. -/
theorem updateQuantity_nonpos_eq_remove (c : Cart) (id : String) (q : Int) (h : q ≤ 0) :
    updateQuantity c id q = removeFromCart c id ∧
    (∀ it ∈ updateQuantity c id q, it.product_id ≠ id) ∧
    (updateQuantity c id q).Sublist c := by
  have heq : updateQuantity c id q = removeFromCart c id := by
    unfold updateQuantity
    rw [if_pos h]
  rw [heq]
  refine ⟨rfl, ?_, List.filter_sublist c⟩
  intro it hit
  have := (List.mem_filter.mp hit).2
  simpa using this

/-- C5 on the example cart with the quantity -1. -/
theorem updateQuantity_nonpos_eq_remove_witness :
    (-1 : Int) ≤ 0 ∧
    (updateQuantity exampleCart "p1" (-1) = removeFromCart exampleCart "p1" ∧
    (∀ it ∈ updateQuantity exampleCart "p1" (-1), it.product_id ≠ "p1") ∧
    (updateQuantity exampleCart "p1" (-1)).Sublist exampleCart) :=
  ⟨by decide, updateQuantity_nonpos_eq_remove exampleCart "p1" (-1) (by decide)⟩

/-- C6: for a quantity `q > 0`, `updateQuantity(id, q)` keeps the length and the order of
the cart; at each position an item with `product_id = id` gets quantity exactly
`q` and keeps its other fields, an item with another id is unchanged; when no
item has that id the cart is unchanged. -/
theorem updateQuantity_pos_sets_quantity (cart : Cart) (id : String) (q : Int) (h : 0 < q) :
    (updateQuantity cart id q).length = cart.length ∧
    (∀ (i : Nat) (it : LineItem), cart[i]? = some it →
      (it.product_id = id → (updateQuantity cart id q)[i]? = some { it with quantity := q }) ∧
      (it.product_id ≠ id → (updateQuantity cart id q)[i]? = some it)) ∧
    ((∀ it ∈ cart, it.product_id ≠ id) → updateQuantity cart id q = cart) := by
  have heq : updateQuantity cart id q =
      cart.map (fun item => if item.product_id == id then { item with quantity := q } else item) := by
    unfold updateQuantity
    rw [if_neg (by omega)]
  rw [heq]
  refine ⟨List.length_map _ _, ?_, fun habs => map_absent cart id _ habs⟩
  intro i it hi
  rw [List.getElem?_map, hi]
  constructor
  · intro hid
    simp [hid]
  · intro hid
    simp [hid]

/-- C6 on the example cart: the first item is set to quantity 9. -/
theorem updateQuantity_pos_sets_quantity_witness :
    (0 : Int) < 9 ∧
    ((updateQuantity exampleCart "p1" 9).length = exampleCart.length ∧
    (∀ (i : Nat) (it : LineItem), exampleCart[i]? = some it →
      (it.product_id = "p1" →
        (updateQuantity exampleCart "p1" 9)[i]? = some { it with quantity := 9 }) ∧
      (it.product_id ≠ "p1" → (updateQuantity exampleCart "p1" 9)[i]? = some it)) ∧
    ((∀ it ∈ exampleCart, it.product_id ≠ "p1") → updateQuantity exampleCart "p1" 9 = exampleCart)) :=
  ⟨by decide, updateQuantity_pos_sets_quantity exampleCart "p1" 9 (by decide)⟩

/-- C7: when the id is not the `product_id` of any line item, `removeFromCart(id)` returns
the cart unchanged: the same items in the same order. -/
theorem removeFromCart_absent_unchanged (c : Cart) (id : String)
    (h : ∀ it ∈ c, it.product_id ≠ id) : removeFromCart c id = c := by
  unfold removeFromCart
  rw [List.filter_eq_self]
  intro it hit
  simpa using h it hit

/-- C7 on the example cart with an id it does not hold. -/
theorem removeFromCart_absent_unchanged_witness :
    (∀ it ∈ exampleCart, it.product_id ≠ "p9") ∧ removeFromCart exampleCart "p9" = exampleCart :=
  ⟨by decide, removeFromCart_absent_unchanged exampleCart "p9" (by decide)⟩

/-- C8: `removeFromCart(id)` returns the line items whose `product_id` differs from `id`,
in their original relative order and unchanged: the result is a sublist of the
cart, holds every item with another id as often as the cart does, holds no
item with `product_id = id`, and a second `removeFromCart(id)` changes nothing. -/
theorem removeFromCart_keeps_exactly_others (c : Cart) (id : String) :
    (removeFromCart c id).Sublist c ∧
    (∀ it : LineItem, it.product_id ≠ id → (removeFromCart c id).count it = c.count it) ∧
    (∀ it ∈ removeFromCart c id, it.product_id ≠ id) ∧
    removeFromCart (removeFromCart c id) id = removeFromCart c id := by
  refine ⟨List.filter_sublist c, ?_, ?_, ?_⟩
  · intro it hid
    unfold removeFromCart
    rw [List.count_filter]
    simpa using hid
  · intro it hit
    have := (List.mem_filter.mp hit).2
    simpa using this
  · unfold removeFromCart
    rw [List.filter_filter]
    simp

/-! ## Aggregates -/

theorem wholeAndSafe_spec (c : Cart) (h : wholeAndSafe c = true) :
    (∀ item ∈ c, item.price.isWhole = true ∧ item.quantity.natAbs < 2 ^ 53) ∧
    (c.map (fun item => (item.price.toInt * item.quantity).natAbs)).sum < 2 ^ 53 := by
  unfold wholeAndSafe at h
  rw [Bool.and_eq_true, List.all_eq_true, decide_eq_true_eq] at h
  refine ⟨?_, h.2⟩
  intro item hitem
  have hi := h.1 item hitem
  rw [Bool.and_eq_true, decide_eq_true_eq] at hi
  exact hi

theorem mul_whole_price (price : JSNumber) (quantity : Int) (hwhole : price.isWhole = true)
    (hq : quantity.natAbs < 2 ^ 53) (hpq : (price.toInt * quantity).natAbs < 2 ^ 53) :
    price.mul (JSNumber.ofInt quantity) = .finite (price.toInt * quantity * unitsPerOne) := by
  have hp := (whole_price price hwhole).1
  have hstart : price.mul (JSNumber.ofInt quantity) =
      (JSNumber.finite (price.toInt * unitsPerOne)).mul (JSNumber.ofInt quantity) := by
    rw [← hp]
  rw [hstart, ofInt_exact quantity hq, mul_whole price.toInt quantity hpq]

theorem foldl_whole (cart : Cart) (A : Int)
    (hall : ∀ item ∈ cart, item.price.isWhole = true ∧ item.quantity.natAbs < 2 ^ 53)
    (hsum : A.natAbs +
      (cart.map (fun item => (item.price.toInt * item.quantity).natAbs)).sum < 2 ^ 53) :
    cart.foldl (fun (sum : JSNumber) (item : LineItem) =>
        sum.add (item.price.mul (JSNumber.ofInt item.quantity)))
        (.finite (A * unitsPerOne)) =
      .finite ((A + (cart.map (fun item => item.price.toInt * item.quantity)).sum) *
        unitsPerOne) := by
  induction cart generalizing A with
  | nil => simp
  | cons x t ih =>
    have hx := hall x (List.mem_cons_self _ _)
    have ht : ∀ item ∈ t, item.price.isWhole = true ∧ item.quantity.natAbs < 2 ^ 53 :=
      fun item hitem => hall item (List.mem_cons_of_mem _ hitem)
    simp only [List.map_cons, List.sum_cons] at hsum ⊢
    rw [List.foldl_cons]
    have hpq : (x.price.toInt * x.quantity).natAbs < 2 ^ 53 := by omega
    have hle := Int.natAbs_add_le A (x.price.toInt * x.quantity)
    have hadd : (A + x.price.toInt * x.quantity).natAbs < 2 ^ 53 := by omega
    rw [mul_whole_price x.price x.quantity hx.1 hx.2 hpq,
      add_whole A (x.price.toInt * x.quantity) hadd,
      ih (A + x.price.toInt * x.quantity) ht (by omega), add_assoc]

theorem getTotal_whole (cart : Cart) (h : wholeAndSafe cart = true) :
    getTotal cart =
      .finite ((cart.map (fun item => item.price.toInt * item.quantity)).sum * unitsPerOne) := by
  obtain ⟨hall, hsum⟩ := wholeAndSafe_spec cart h
  have hfold := foldl_whole cart 0 hall (by simpa using hsum)
  unfold getTotal
  rw [zero_eq_finite]
  simpa using hfold

theorem foldl_stable (cart : Cart) (acc : JSNumber) (h : acc.add (.finite 0) = acc) :
    (cart.foldl (fun (sum : JSNumber) (item : LineItem) =>
        sum.add (item.price.mul (JSNumber.ofInt item.quantity))) acc).add (.finite 0) =
      cart.foldl (fun (sum : JSNumber) (item : LineItem) =>
        sum.add (item.price.mul (JSNumber.ofInt item.quantity))) acc := by
  induction cart generalizing acc with
  | nil => exact h
  | cons x t ih =>
    rw [List.foldl_cons]
    exact ih _ (add_stable _ _)

theorem getTotal_sub_zero (cart : Cart) : (getTotal cart).sub 0 = getTotal cart := by
  apply sub_zero_of_stable
  unfold getTotal
  apply foldl_stable
  rw [zero_eq_finite]
  decide!

theorem sumPriceTimesQuantity_whole (cart : Cart)
    (hall : ∀ item ∈ cart, item.price.isWhole = true) :
    sumPriceTimesQuantity cart =
      .finite ((cart.map (fun item => item.price.toInt * item.quantity)).sum * unitsPerOne) := by
  unfold sumPriceTimesQuantity
  congr 1
  induction cart with
  | nil => simp
  | cons x t ih =>
    have hx := (whole_price x.price (hall x (List.mem_cons_self _ _))).2
    have ht := ih (fun item hitem => hall item (List.mem_cons_of_mem _ hitem))
    simp only [List.map_cons, List.sum_cons]
    rw [ht, hx]
    ring

theorem foldl_count (c : Cart) (a : Int) :
    c.foldl (fun sum item => sum + item.quantity) a = a + sumQuantities c := by
  induction c generalizing a with
  | nil => simp [sumQuantities]
  | cons x t ih =>
    rw [List.foldl_cons, ih]
    simp only [sumQuantities, List.map_cons, List.sum_cons]
    omega

theorem getItemCount_eq_sum (c : Cart) : getItemCount c = sumQuantities c := by
  unfold getItemCount
  rw [foldl_count]
  omega

theorem length_le_sumQuantities (c : Cart) (h : ∀ it ∈ c, 1 ≤ it.quantity) :
    (c.length : Int) ≤ sumQuantities c := by
  induction c with
  | nil => simp [sumQuantities]
  | cons x t ih =>
    have hx := h x (List.mem_cons_self _ _)
    have ht := ih (fun it hit => h it (List.mem_cons_of_mem _ hit))
    simp only [sumQuantities, List.map_cons, List.sum_cons, List.length_cons] at ht ⊢
    push_cast
    omega

theorem length_lt_sumQuantities (c : Cart) (h : ∀ it ∈ c, 1 ≤ it.quantity)
    (hne : ∃ it ∈ c, it.quantity ≠ 1) : (c.length : Int) < sumQuantities c := by
  induction c with
  | nil =>
    obtain ⟨it, hit, _⟩ := hne
    cases hit
  | cons x t ih =>
    have hx := h x (List.mem_cons_self _ _)
    have ht : ∀ it ∈ t, 1 ≤ it.quantity := fun it hit => h it (List.mem_cons_of_mem _ hit)
    have hle := length_le_sumQuantities t ht
    by_cases hx1 : x.quantity = 1
    · have hne2 : ∃ it ∈ t, it.quantity ≠ 1 := by
        obtain ⟨it, hit, hq⟩ := hne
        rcases List.mem_cons.mp hit with rfl | hit2
        · exact absurd hx1 hq
        · exact ⟨it, hit2, hq⟩
      have hlt := ih ht hne2
      simp only [sumQuantities, List.map_cons, List.sum_cons, List.length_cons] at hlt ⊢
      push_cast
      omega
    · simp only [sumQuantities, List.map_cons, List.sum_cons, List.length_cons] at hle ⊢
      push_cast
      omega

/-- C9, as stated, fails: after adding one item each at the prices 0.1, 0.2 and 0.3 the
total is 0.6000000000000001, which is not the sum of the three prices; the
total even depends on the order of the items, the same items added in reverse
order giving 0.6.  With whole numbers beyond the safe integers the total is
rounded as well: three pieces at `2 ^ 53 - 1` total 27021597764222972, one less
than the sum. -/
theorem getTotal_rounds_decimal_prices :
    ¬ (∀ ops : List CartOp, getTotal (runOps ops []) = sumPriceTimesQuantity (runOps ops [])) ∧
    getTotal (runOps decimalOps []) = double 1351079888211149 (-51) ∧
    getTotal (runOps decimalOps.reverse []) = double 5404319552844595 (-53) ∧
    getTotal largePriceCart = 27021597764222972 ∧
    sumPriceTimesQuantity largePriceCart = .finite (27021597764222973 * unitsPerOne) := by
  refine ⟨?_, by decide!, by decide!, by decide!, by decide!⟩
  intro h
  exact absurd (h decimalOps) (by decide!)

/-- C9, amended: for every cart whose prices are whole numbers and whose amounts are safe
integers (every quantity and the sum of the absolute values of price times
quantity stay below `2 ^ 53`), `getTotal()` equals the exact sum over the line
items of price times quantity; it is 0 on the empty cart and 1300 on the cart
with prices 500, 300 and quantities 2, 1. -/
theorem getTotal_eq_sum_of_safe_integers (cart : Cart) (h : wholeAndSafe cart = true) :
    getTotal cart = sumPriceTimesQuantity cart ∧
    getTotal [] = 0 ∧
    getTotal exampleCart = 1300 := by
  refine ⟨?_, rfl, by decide!⟩
  rw [getTotal_whole cart h,
    sumPriceTimesQuantity_whole cart (fun item hitem => ((wholeAndSafe_spec cart h).1 item hitem).1)]

/-- C9, amended, on the example cart. -/
theorem getTotal_eq_sum_of_safe_integers_witness :
    wholeAndSafe exampleCart = true ∧
    getTotal exampleCart = sumPriceTimesQuantity exampleCart :=
  ⟨by decide!, (getTotal_eq_sum_of_safe_integers exampleCart (by decide!)).1⟩

/-- C10, as stated, fails: a cart with quantities 2 and 0 has a quantity other than 1,
yet its item count 2 equals the length of the list. -/
theorem getItemCount_may_equal_length :
    ¬ ∀ c : Cart, getItemCount c = sumQuantities c ∧
      ((∃ it ∈ c, it.quantity ≠ 1) → getItemCount c ≠ (c.length : Int)) := by
  intro h
  have h2 := (h (addToCart (addToCart [] sampleProduct 2) otherProduct 0)).2
  exact h2 (by decide) (by decide)

/-- C10, amended: for every cart `getItemCount()` equals the sum of the quantities of all
line items; when every quantity is at least one, it differs from the list
length as soon as some quantity is not 1; the example cart has item count 3. -/
theorem getItemCount_eq_sum_of_quantities (c : Cart) :
    getItemCount c = sumQuantities c ∧
    ((∀ it ∈ c, 1 ≤ it.quantity) → (∃ it ∈ c, it.quantity ≠ 1) →
      getItemCount c ≠ (c.length : Int)) ∧
    getItemCount exampleCart = 3 := by
  refine ⟨getItemCount_eq_sum c, ?_, by decide⟩
  intro hpos hne
  have hlt := length_lt_sumQuantities c hpos hne
  rw [getItemCount_eq_sum]
  omega

/-- C10, amended, on the example cart, whose quantities are 2 and 1. -/
theorem getItemCount_eq_sum_of_quantities_witness :
    (∀ it ∈ exampleCart, 1 ≤ it.quantity) ∧ (∃ it ∈ exampleCart, it.quantity ≠ 1) ∧
    getItemCount exampleCart ≠ (exampleCart.length : Int) :=
  ⟨by decide, by decide,
    (getItemCount_eq_sum_of_quantities exampleCart).2.1 (by decide) (by decide)⟩

/-! ## Removing through `updateQuantity`, and clearing -/

theorem filter_absent (c : Cart) (id : String) (h : ∀ it ∈ c, it.product_id ≠ id) :
    removeFromCart c id = c := by
  unfold removeFromCart
  rw [List.filter_eq_self]
  intro it hit
  simpa using h it hit

theorem sum_map_removeFromCart (g : LineItem → Int) (c : Cart) (id : String) (it : LineItem)
    (hnd : (productIds c).Nodup) (hit : it ∈ c) (hid : it.product_id = id) :
    ((removeFromCart c id).map g).sum = (c.map g).sum - g it := by
  induction c with
  | nil => cases hit
  | cons a t ih =>
    have hnd2 : a.product_id ∉ productIds t ∧ (productIds t).Nodup := by
      simpa [productIds] using hnd
    rcases List.mem_cons.mp hit with rfl | hit2
    · have habs : ∀ x ∈ t, x.product_id ≠ id := by
        intro x hx hxid
        apply hnd2.1
        rw [hid, ← hxid]
        exact List.mem_map_of_mem (fun item => item.product_id) hx
      have htail := filter_absent t id habs
      unfold removeFromCart at htail ⊢
      rw [List.filter_cons_of_neg (by simpa using hid), htail]
      simp only [List.map_cons, List.sum_cons]
      omega
    · have ha : a.product_id ≠ id := by
        intro haid
        apply hnd2.1
        rw [haid, ← hid]
        exact List.mem_map_of_mem (fun item => item.product_id) hit2
      have h2 := ih hnd2.2 hit2
      unfold removeFromCart at h2 ⊢
      rw [List.filter_cons_of_pos (by simpa using ha)]
      simp only [List.map_cons, List.sum_cons] at h2 ⊢
      omega

theorem sum_map_filter_le (f : LineItem → Nat) (keep : LineItem → Bool) (c : Cart) :
    ((c.filter keep).map f).sum ≤ (c.map f).sum := by
  induction c with
  | nil => simp
  | cons a t ih =>
    by_cases ha : keep a = true
    · rw [List.filter_cons_of_pos ha]
      simp only [List.map_cons, List.sum_cons]
      omega
    · rw [List.filter_cons_of_neg ha]
      simp only [List.map_cons, List.sum_cons]
      omega

theorem natAbs_sum_map_le (g : LineItem → Int) (c : Cart) :
    ((c.map g).sum).natAbs ≤ (c.map (fun item => (g item).natAbs)).sum := by
  induction c with
  | nil => simp
  | cons a t ih =>
    simp only [List.map_cons, List.sum_cons]
    have := Int.natAbs_add_le (g a) ((t.map g).sum)
    omega

theorem le_sum_map_of_mem (f : LineItem → Nat) (c : Cart) (it : LineItem) (hit : it ∈ c) :
    f it ≤ (c.map f).sum := by
  induction c with
  | nil => cases hit
  | cons a t ih =>
    simp only [List.map_cons, List.sum_cons]
    rcases List.mem_cons.mp hit with rfl | hit2
    · omega
    · have := ih hit2
      omega

theorem wholeAndSafe_removeFromCart (c : Cart) (id : String) (h : wholeAndSafe c = true) :
    wholeAndSafe (removeFromCart c id) = true := by
  obtain ⟨hall, hsum⟩ := wholeAndSafe_spec c h
  have hle := sum_map_filter_le (fun item => (item.price.toInt * item.quantity).natAbs)
    (fun item => item.product_id != id) c
  unfold wholeAndSafe
  rw [Bool.and_eq_true, List.all_eq_true, decide_eq_true_eq]
  refine ⟨?_, lt_of_le_of_lt hle hsum⟩
  intro item hitem
  have hi := hall item (List.mem_of_mem_filter hitem)
  rw [Bool.and_eq_true, decide_eq_true_eq]
  exact hi

theorem getTotal_removeFromCart_whole (c : Cart) (id : String) (it : LineItem)
    (hnd : (productIds c).Nodup) (hit : it ∈ c) (hid : it.product_id = id)
    (h : wholeAndSafe c = true) :
    getTotal (removeFromCart c id) =
      (getTotal c).sub (it.price.mul (JSNumber.ofInt it.quantity)) := by
  obtain ⟨hall, hsum⟩ := wholeAndSafe_spec c h
  have hrem := wholeAndSafe_removeFromCart c id h
  have hsumrem := (wholeAndSafe_spec _ hrem).2
  have hdrop : ((removeFromCart c id).map (fun item => item.price.toInt * item.quantity)).sum =
      (c.map (fun item => item.price.toInt * item.quantity)).sum -
        it.price.toInt * it.quantity :=
    sum_map_removeFromCart (fun item => item.price.toInt * item.quantity) c id it hnd hit hid
  have habs := natAbs_sum_map_le (fun item => item.price.toInt * item.quantity)
    (removeFromCart c id)
  have hmem : (it.price.toInt * it.quantity).natAbs ≤
      (c.map (fun item => (item.price.toInt * item.quantity).natAbs)).sum :=
    le_sum_map_of_mem (fun item => (item.price.toInt * item.quantity).natAbs) c it hit
  have hit2 := hall it hit
  have hback : (c.map (fun item => item.price.toInt * item.quantity)).sum +
      -(it.price.toInt * it.quantity) =
      ((removeFromCart c id).map (fun item => item.price.toInt * item.quantity)).sum := by
    rw [hdrop]
    ring
  have hbound : ((c.map (fun item => item.price.toInt * item.quantity)).sum +
      -(it.price.toInt * it.quantity)).natAbs < 2 ^ 53 := by
    rw [hback]
    exact lt_of_le_of_lt habs hsumrem
  rw [getTotal_whole c h, getTotal_whole _ hrem,
    mul_whole_price it.price it.quantity hit2.1 hit2.2 (lt_of_le_of_lt hmem hsum)]
  show _ = (JSNumber.finite _).add
    (JSNumber.finite (-(it.price.toInt * it.quantity * unitsPerOne)))
  rw [← neg_mul, add_whole _ (-(it.price.toInt * it.quantity)) hbound, hback]

/-- C11, as stated, fails: in the cart with the prices 199.99 and 49.95 the total is
249.94; after `updateQuantity('j1', 0)` it is 49.95, but 249.94 minus 199.99 is
49.94999999999999. -/
theorem updateQuantity_zero_total_not_exact :
    ¬ (∀ (cart : Cart) (id : String) (it : LineItem),
      (productIds cart).Nodup → it ∈ cart → it.product_id = id →
      (∀ x ∈ updateQuantity cart id 0, x.product_id ≠ id) ∧
      getItemCount (updateQuantity cart id 0) = getItemCount cart - it.quantity ∧
      getTotal (updateQuantity cart id 0) =
        (getTotal cart).sub (it.price.mul (JSNumber.ofInt it.quantity))) ∧
    getTotal jacketCart = double 4396990979941335 (-44) ∧
    getTotal (updateQuantity jacketCart "j1" 0) = double 3514918771674317 (-46) ∧
    (getTotal jacketCart).sub (jacketItem.price.mul (JSNumber.ofInt jacketItem.quantity)) =
      double 878729692918579 (-44) := by
  refine ⟨?_, by decide!, by decide!, by decide!⟩
  intro h
  exact absurd (h jacketCart "j1" jacketItem (by decide!) (by decide!) rfl).2.2 (by decide!)

/-- C11, amended: in a cart with pairwise distinct product ids that holds a line item `it`
with `product_id = id`, `updateQuantity(id, 0)` leaves no item with that id and
`getItemCount()` drops by the quantity of `it`; when the prices are whole numbers
and the amounts are safe integers, `getTotal()` drops by exactly the price of
`it` times its quantity. -/
theorem updateQuantity_zero_drops_item (cart : Cart) (id : String) (it : LineItem)
    (hnd : (productIds cart).Nodup) (hit : it ∈ cart) (hid : it.product_id = id) :
    (∀ x ∈ updateQuantity cart id 0, x.product_id ≠ id) ∧
    getItemCount (updateQuantity cart id 0) = getItemCount cart - it.quantity ∧
    (wholeAndSafe cart = true →
      getTotal (updateQuantity cart id 0) =
        (getTotal cart).sub (it.price.mul (JSNumber.ofInt it.quantity))) := by
  have heq : updateQuantity cart id 0 = removeFromCart cart id := by
    unfold updateQuantity
    rw [if_pos (le_refl 0)]
  rw [heq, getItemCount_eq_sum, getItemCount_eq_sum]
  refine ⟨?_, sum_map_removeFromCart (fun item => item.quantity) cart id it hnd hit hid,
    getTotal_removeFromCart_whole cart id it hnd hit hid⟩
  intro x hx
  have := (List.mem_filter.mp hx).2
  simpa using this

/-- C11, amended, on the example cart: dropping its first item, of quantity 2 and price 500. -/
theorem updateQuantity_zero_drops_item_witness :
    ((productIds exampleCart).Nodup ∧ exampleFirstItem ∈ exampleCart ∧
      exampleFirstItem.product_id = "p1" ∧ wholeAndSafe exampleCart = true) ∧
    ((∀ x ∈ updateQuantity exampleCart "p1" 0, x.product_id ≠ "p1") ∧
    getItemCount (updateQuantity exampleCart "p1" 0) =
      getItemCount exampleCart - exampleFirstItem.quantity ∧
    getTotal (updateQuantity exampleCart "p1" 0) =
      (getTotal exampleCart).sub
        (exampleFirstItem.price.mul (JSNumber.ofInt exampleFirstItem.quantity))) :=
  ⟨⟨by decide, by decide!, by decide, by decide!⟩,
    (updateQuantity_zero_drops_item exampleCart "p1" exampleFirstItem (by decide) (by decide!)
      (by decide)).1,
    (updateQuantity_zero_drops_item exampleCart "p1" exampleFirstItem (by decide) (by decide!)
      (by decide)).2.1,
    (updateQuantity_zero_drops_item exampleCart "p1" exampleFirstItem (by decide) (by decide!)
      (by decide)).2.2 (by decide!)⟩

/-- C12: after `clearCart()` the line-item list is empty, so `getItemCount()` and
`getTotal()` both return 0. -/
theorem clearCart_empties (cart : Cart) :
    clearCart cart = [] ∧ getItemCount (clearCart cart) = 0 ∧ getTotal (clearCart cart) = 0 :=
  ⟨rfl, rfl, rfl⟩


/-! ## Persistence of the cart -/

/-- C13, evaluated on the code: the handler of `clearCart()` removes the `cart` entry,
but the persist effect of the re-render that follows writes the serialised
empty list back, so after the completed call the entry is present and holds
the serialisation of `[]`; so it is on the example cart, where it ends as `[]`. -/
theorem clearCart_run_persists_empty_list (stringify : Cart → String) (s : CartState) :
    getItem (CartOp.handler s CartOp.clear).storage "cart" = none ∧
    (CartOp.run stringify s CartOp.clear).cart = [] ∧
    getItem (CartOp.run stringify s CartOp.clear).storage "cart" = some (stringify []) ∧
    getItem (CartOp.run sampleStringify
      { cart := exampleCart, storage := setItem emptyStorage "cart" "[2, 1]" }
      CartOp.clear).storage "cart" = some "[]" := by
  refine ⟨?_, rfl, ?_, by decide⟩
  · simp [CartOp.handler, getItem, removeItem]
  · simp [CartOp.run, CartOp.handler, persistCart, getItem, setItem, clearCart]

/-- C14: after a completed `addToCart`, `updateQuantity` or `removeFromCart` call the cart
is the result of the updater and the `cart` entry of the storage is the
serialisation of that whole cart. -/
theorem storage_agrees_after_mutation (stringify : Cart → String) (s : CartState) :
    (∀ (product : Product) (quantity : Int),
      (CartOp.run stringify s (CartOp.add product quantity)).cart =
        addToCart s.cart product quantity ∧
      getItem (CartOp.run stringify s (CartOp.add product quantity)).storage "cart" =
        some (stringify (addToCart s.cart product quantity))) ∧
    (∀ (productId : String) (quantity : Int),
      (CartOp.run stringify s (CartOp.update productId quantity)).cart =
        updateQuantity s.cart productId quantity ∧
      getItem (CartOp.run stringify s (CartOp.update productId quantity)).storage "cart" =
        some (stringify (updateQuantity s.cart productId quantity))) ∧
    (∀ productId : String,
      (CartOp.run stringify s (CartOp.remove productId)).cart =
        removeFromCart s.cart productId ∧
      getItem (CartOp.run stringify s (CartOp.remove productId)).storage "cart" =
        some (stringify (removeFromCart s.cart productId))) := by
  refine ⟨fun product quantity => ⟨rfl, ?_⟩, fun productId quantity => ⟨rfl, ?_⟩,
    fun productId => ⟨rfl, ?_⟩⟩ <;>
  simp [CartOp.run, CartOp.handler, persistCart, getItem, setItem]

/-! ## The session holder -/

theorem checkAuthStart_of_cached (parseUser : String → Option (Option Profile))
    (s : AuthState) (savedUser : String) (parsed : Option Profile)
    (htoken : truthy (getItem s.storage "token") = true)
    (huser : getItem s.storage "user" = some savedUser)
    (hne : truthy (some savedUser) = true)
    (hparse : parseUser savedUser = some parsed) :
    checkAuthStart parseUser s =
      .awaiting { s with user := parsed, requests := s.requests ++ [⟨"/auth/me", []⟩] } := by
  unfold checkAuthStart
  rw [huser]
  simp only [htoken, hne, hparse, Bool.and_self, if_true]

theorem checkAuthStart_of_unparsable (parseUser : String → Option (Option Profile))
    (s : AuthState) (savedUser : String)
    (htoken : truthy (getItem s.storage "token") = true)
    (huser : getItem s.storage "user" = some savedUser)
    (hne : truthy (some savedUser) = true)
    (hparse : parseUser savedUser = none) :
    checkAuthStart parseUser s = .settled { evictCredentials s with loading := false } := by
  unfold checkAuthStart
  rw [huser]
  simp only [htoken, hne, hparse, Bool.and_self, if_true]

theorem checkAuthStart_of_no_token (parseUser : String → Option (Option Profile))
    (s : AuthState) (htoken : truthy (getItem s.storage "token") = false) :
    checkAuthStart parseUser s = .settled { s with loading := false } := by
  unfold checkAuthStart
  cases getItem s.storage "user" with
  | none => rfl
  | some savedUser => simp only [htoken, Bool.false_and, Bool.false_eq_true, if_false]

/-- C15: `logout()` ends with no current profile and with neither `token` nor `user` in the
storage; it sends no request, and every other storage entry, the persisted
`cart` among them, is what it was. -/
theorem logout_clears_session (s : AuthState) :
    (logout s).user = none ∧
    getItem (logout s).storage "token" = none ∧
    getItem (logout s).storage "user" = none ∧
    (logout s).requests = s.requests ∧
    getItem (logout s).storage "cart" = getItem s.storage "cart" ∧
    (∀ key : String, key ≠ "token" → key ≠ "user" →
      getItem (logout s).storage key = getItem s.storage key) := by
  refine ⟨rfl, ?_, ?_, rfl, ?_, ?_⟩
  · simp [logout, getItem, removeItem]
  · simp [logout, getItem, removeItem]
  · simp [logout, getItem, removeItem]
  · intro key h1 h2
    simp [logout, getItem, removeItem, h1, h2]

/-- C16, as stated, fails: with a stored token but no cached `user` entry `checkAuth` sends
no request and leaves the token in the storage, whatever the server would answer. -/
theorem checkAuth_rejected_may_keep_token :
    ¬ ∀ (parseUser : String → Option (Option Profile)) (stringifyUser : Profile → String)
      (storage : Storage), truthy (getItem storage "token") = true →
      (checkAuth parseUser stringifyUser none (initialAuthState storage)).user = none ∧
      (checkAuth parseUser stringifyUser none (initialAuthState storage)).loading = false ∧
      getItem (checkAuth parseUser stringifyUser none (initialAuthState storage)).storage
        "token" = none ∧
      getItem (checkAuth parseUser stringifyUser none (initialAuthState storage)).storage
        "user" = none := by
  intro h
  have h2 := h sampleParseUser sampleStringifyUser tokenOnlyStorage (by decide)
  exact absurd h2.2.2.1 (by decide)

/-- C16, amended: for every startup state in which a token and a cached `user` entry are
both stored and the server rejects revalidation, the final state has no user,
`loading = false`, and neither `token` nor `user` remains in the storage. -/
theorem checkAuth_rejected_evicts (parseUser : String → Option (Option Profile))
    (stringifyUser : Profile → String) (storage : Storage)
    (htoken : truthy (getItem storage "token") = true)
    (huser : truthy (getItem storage "user") = true) :
    (checkAuth parseUser stringifyUser none (initialAuthState storage)).user = none ∧
    (checkAuth parseUser stringifyUser none (initialAuthState storage)).loading = false ∧
    getItem (checkAuth parseUser stringifyUser none (initialAuthState storage)).storage
      "token" = none ∧
    getItem (checkAuth parseUser stringifyUser none (initialAuthState storage)).storage
      "user" = none := by
  cases hu : getItem storage "user" with
  | none => rw [hu] at huser; simp [truthy] at huser
  | some savedUser =>
    rw [hu] at huser
    unfold checkAuth
    cases hp : parseUser savedUser with
    | none =>
      rw [checkAuthStart_of_unparsable parseUser (initialAuthState storage) savedUser htoken hu
        huser hp]
      simp [evictCredentials, getItem, removeItem, initialAuthState]
    | some parsed =>
      rw [checkAuthStart_of_cached parseUser (initialAuthState storage) savedUser parsed htoken
        hu huser hp]
      simp [checkAuthFinish, evictCredentials, getItem, removeItem, initialAuthState]

/-- C16, amended, on a storage with a token and the cached profile of Alice. -/
theorem checkAuth_rejected_evicts_witness :
    (truthy (getItem loggedInStorage "token") = true ∧
      truthy (getItem loggedInStorage "user") = true) ∧
    ((checkAuth sampleParseUser sampleStringifyUser none
      (initialAuthState loggedInStorage)).user = none ∧
    (checkAuth sampleParseUser sampleStringifyUser none
      (initialAuthState loggedInStorage)).loading = false ∧
    getItem (checkAuth sampleParseUser sampleStringifyUser none
      (initialAuthState loggedInStorage)).storage "token" = none ∧
    getItem (checkAuth sampleParseUser sampleStringifyUser none
      (initialAuthState loggedInStorage)).storage "user" = none) :=
  ⟨⟨by decide, by decide⟩,
    checkAuth_rejected_evicts sampleParseUser sampleStringifyUser loggedInStorage (by decide)
      (by decide)⟩

/-- C17: with a stored token and a cached `user` entry that parses to the profile
`cached`, `checkAuth` first shows `cached` while loading and waits for the server;
when the server answers with the profile `d`, the final state has user `d` and
`loading = false`, the `user` entry is the serialisation of `d` and the token is
untouched.  With no stored token the final state has no user and
`loading = false`, and no request has been sent. -/
theorem checkAuth_startup (parseUser : String → Option (Option Profile))
    (stringifyUser : Profile → String) (storage : Storage) :
    (∀ (savedUser : String) (cached : Profile),
      truthy (getItem storage "token") = true →
      getItem storage "user" = some savedUser → truthy (some savedUser) = true →
      parseUser savedUser = some (some cached) →
      (∃ s1 : AuthState,
        checkAuthStart parseUser (initialAuthState storage) = CheckAuthStep.awaiting s1 ∧
        s1.user = some cached ∧ s1.loading = true ∧ s1.storage = storage) ∧
      ∀ d : Profile,
        (checkAuth parseUser stringifyUser (some d) (initialAuthState storage)).user = some d ∧
        (checkAuth parseUser stringifyUser (some d) (initialAuthState storage)).loading = false ∧
        getItem (checkAuth parseUser stringifyUser (some d) (initialAuthState storage)).storage
          "user" = some (stringifyUser d) ∧
        getItem (checkAuth parseUser stringifyUser (some d) (initialAuthState storage)).storage
          "token" = getItem storage "token") ∧
    (truthy (getItem storage "token") = false →
      ∀ response : Option Profile,
        (checkAuth parseUser stringifyUser response (initialAuthState storage)).user = none ∧
        (checkAuth parseUser stringifyUser response (initialAuthState storage)).loading = false ∧
        (checkAuth parseUser stringifyUser response (initialAuthState storage)).requests = []) := by
  constructor
  · intro savedUser cached htoken huser hne hparse
    have hstart := checkAuthStart_of_cached parseUser (initialAuthState storage) savedUser
      (some cached) htoken huser hne hparse
    refine ⟨⟨_, hstart, rfl, rfl, rfl⟩, ?_⟩
    intro d
    unfold checkAuth
    rw [hstart]
    simp [checkAuthFinish, getItem, setItem, initialAuthState]
  · intro htoken response
    unfold checkAuth
    rw [checkAuthStart_of_no_token parseUser (initialAuthState storage) htoken]
    exact ⟨rfl, rfl, rfl⟩

/-- C17 on a storage with a token and the cached profile of Alice, the server answering
with the administrator profile, and on the empty storage. -/
theorem checkAuth_startup_witness :
    ((∃ s1 : AuthState,
        checkAuthStart sampleParseUser (initialAuthState loggedInStorage) =
          CheckAuthStep.awaiting s1 ∧
        s1.user = some aliceProfile ∧ s1.loading = true ∧ s1.storage = loggedInStorage) ∧
      (checkAuth sampleParseUser sampleStringifyUser (some adminProfile)
        (initialAuthState loggedInStorage)).user = some adminProfile) ∧
    (truthy (getItem emptyStorage "token") = false ∧
      (checkAuth sampleParseUser sampleStringifyUser (some adminProfile)
        (initialAuthState emptyStorage)).requests = []) :=
  ⟨⟨((checkAuth_startup sampleParseUser sampleStringifyUser loggedInStorage).1
        "alice@example.com" aliceProfile (by decide) (by decide) (by decide) (by decide)).1,
      (((checkAuth_startup sampleParseUser sampleStringifyUser loggedInStorage).1
        "alice@example.com" aliceProfile (by decide) (by decide) (by decide) (by decide)).2
        adminProfile).1⟩,
    ⟨by decide,
      ((checkAuth_startup sampleParseUser sampleStringifyUser emptyStorage).2 (by decide)
        (some adminProfile)).2.2⟩⟩

/-- C18: when the auth endpoint answers with `{ access_token, user }`, `login`, and
likewise `register`, stores the token under `token` and the serialised profile
under `user`, sets the current profile to that user and returns that user. -/
theorem login_register_success (stringifyUser : Profile → String) (s : AuthState)
    (email password full_name phone : String) (data : AuthData) :
    (getItem (login stringifyUser s email password (.ok data)).1.storage "token" =
        some data.access_token ∧
      getItem (login stringifyUser s email password (.ok data)).1.storage "user" =
        some (stringifyUser data.user) ∧
      (login stringifyUser s email password (.ok data)).1.user = some data.user ∧
      (login stringifyUser s email password (.ok data)).2 = .ok data.user) ∧
    (getItem (register stringifyUser s email password full_name phone (.ok data)).1.storage
        "token" = some data.access_token ∧
      getItem (register stringifyUser s email password full_name phone (.ok data)).1.storage
        "user" = some (stringifyUser data.user) ∧
      (register stringifyUser s email password full_name phone (.ok data)).1.user =
        some data.user ∧
      (register stringifyUser s email password full_name phone (.ok data)).2 =
        .ok data.user) := by
  refine ⟨⟨?_, ?_, rfl, rfl⟩, ⟨?_, ?_, rfl, rfl⟩⟩ <;>
  simp [login, register, getItem, setItem]

/-- C19: when the auth endpoint fails with an error, `login`, and likewise `register`,
hands that same error to the caller and leaves the session as it was: the
current profile, the loading flag and the whole storage, so the `token` and
`user` entries, are unchanged. -/
theorem login_register_failure (stringifyUser : Profile → String) (s : AuthState)
    (email password full_name phone : String) (e : ApiError) :
    ((login stringifyUser s email password (.error e)).2 = .error e ∧
      (login stringifyUser s email password (.error e)).1.user = s.user ∧
      (login stringifyUser s email password (.error e)).1.loading = s.loading ∧
      (login stringifyUser s email password (.error e)).1.storage = s.storage) ∧
    ((register stringifyUser s email password full_name phone (.error e)).2 = .error e ∧
      (register stringifyUser s email password full_name phone (.error e)).1.user = s.user ∧
      (register stringifyUser s email password full_name phone (.error e)).1.loading =
        s.loading ∧
      (register stringifyUser s email password full_name phone (.error e)).1.storage =
        s.storage) :=
  ⟨⟨rfl, rfl, rfl, rfl⟩, ⟨rfl, rfl, rfl, rfl⟩⟩

/-- C20: `isAdmin` is true exactly when a profile is present and its role is the string
`ADMIN`; it is false without a user, for a missing role and for any other role,
a role in another letter case included. -/
theorem isAdmin_iff_role_admin :
    (∀ user : Option Profile,
      isAdmin user = true ↔ ∃ profile : Profile, user = some profile ∧ profile.role = some "ADMIN") ∧
    isAdmin none = false ∧
    (∀ profile : Profile, profile.role = none → isAdmin (some profile) = false) ∧
    (∀ (profile : Profile) (role : String), profile.role = some role → role ≠ "ADMIN" →
      isAdmin (some profile) = false) ∧
    isAdmin (some { aliceProfile with role := some "admin" }) = false ∧
    isAdmin (some { aliceProfile with role := some "Admin" }) = false := by
  refine ⟨?_, rfl, ?_, ?_, by decide, by decide⟩
  · intro user
    cases user with
    | none => simp [isAdmin]
    | some profile => simp [isAdmin]
  · intro profile hrole
    simp [isAdmin, hrole]
  · intro profile role hrole hne
    simp [isAdmin, hrole, hne]

/-! ## More on `addToCart` -/

theorem sumQuantities_map_add (c : Cart) (id : String) (q : Int)
    (hnd : (productIds c).Nodup) (hex : ∃ it ∈ c, it.product_id = id) :
    sumQuantities (c.map (fun item =>
      if item.product_id == id then { item with quantity := item.quantity + q } else item)) =
    sumQuantities c + q := by
  induction c with
  | nil =>
    obtain ⟨it, hit, _⟩ := hex
    cases hit
  | cons a t ih =>
    have hnd2 : a.product_id ∉ productIds t ∧ (productIds t).Nodup := by
      simpa [productIds] using hnd
    by_cases ha : a.product_id = id
    · have habs : ∀ x ∈ t, x.product_id ≠ id := by
        intro x hx hxid
        apply hnd2.1
        rw [ha, ← hxid]
        exact List.mem_map_of_mem (fun item => item.product_id) hx
      rw [List.map_cons, map_absent t id _ habs]
      simp only [sumQuantities, List.map_cons, List.sum_cons, ha, beq_self_eq_true, if_true]
      omega
    · have hex2 : ∃ it ∈ t, it.product_id = id := by
        obtain ⟨it, hit, hid⟩ := hex
        rcases List.mem_cons.mp hit with rfl | hit2
        · exact absurd hid ha
        · exact ⟨it, hit2, hid⟩
      have h2 := ih hnd2.2 hex2
      have hb : (a.product_id == id) = false := by simpa using ha
      rw [List.map_cons]
      simp only [sumQuantities, List.map_cons, List.sum_cons, hb] at h2 ⊢
      simp only [Bool.false_eq_true, if_false]
      omega

theorem sumQuantities_append_singleton (c : Cart) (it : LineItem) :
    sumQuantities (c ++ [it]) = sumQuantities c + it.quantity := by
  simp [sumQuantities]

/-- C25: when the cart already holds a line item for `product.id`, `addToCart(product, q)`
keeps the length and the order of the cart; at each position an item with that
id gets its old quantity plus `q` and keeps its own price, name and image,
whatever the product passed now carries, and an item with another id is
unchanged. -/
theorem addToCart_present_keeps_captured_fields (cart : Cart) (product : Product) (q : Int)
    (h : ∃ it ∈ cart, it.product_id = product.id) :
    (addToCart cart product q).length = cart.length ∧
    (∀ (i : Nat) (it : LineItem), cart[i]? = some it →
      (it.product_id = product.id →
        (addToCart cart product q)[i]? =
          some { product_id := it.product_id, product_name := it.product_name,
                 quantity := it.quantity + q, price := it.price, image := it.image }) ∧
      (it.product_id ≠ product.id → (addToCart cart product q)[i]? = some it)) := by
  rw [addToCart_present cart product q h]
  refine ⟨List.length_map _ _, ?_⟩
  intro i it hi
  rw [List.getElem?_map, hi]
  constructor
  · intro hid
    simp [hid]
  · intro hid
    simp [hid]

/-- C25 on the example cart: the product passed carries another name, price and image. -/
theorem addToCart_present_keeps_captured_fields_witness :
    (∃ it ∈ exampleCart, it.product_id = "p1") ∧
    (addToCart exampleCart
      { id := "p1", name := "Wool socks", price_inr := 999, images := ["new.png"] } 3).length =
      exampleCart.length ∧
    (addToCart exampleCart
      { id := "p1", name := "Wool socks", price_inr := 999, images := ["new.png"] } 3)[0]? =
      some { product_id := "p1", product_name := "Socks", quantity := 2 + 3, price := 500,
             image := none } :=
  ⟨by decide,
    (addToCart_present_keeps_captured_fields exampleCart
      { id := "p1", name := "Wool socks", price_inr := 999, images := ["new.png"] } 3
      (by decide)).1,
    ((addToCart_present_keeps_captured_fields exampleCart
      { id := "p1", name := "Wool socks", price_inr := 999, images := ["new.png"] } 3
      (by decide)).2 0 exampleFirstItem rfl).1 (by decide)⟩

/-- C26: if every `addToCart` call of a sequence passes a quantity of at least one, then
every cart met along the run from the empty cart, after any number of its
calls, has all line-item quantities at least one; the arguments of
`updateQuantity` are arbitrary integers. -/
theorem reachable_quantities_at_least_one (ops : List CartOp)
    (hops : ∀ op ∈ ops, op.addAtLeastOne = true) (k : Nat) :
    ∀ it ∈ runOps (ops.take k) [], 1 ≤ it.quantity :=
  quantities_runOps (ops.take k) [] (fun op hop => hops op (List.mem_of_mem_take hop))
    (fun _ hit => by cases hit)

/-- C26 on a run that adds, sets a negative quantity and adds again. -/
theorem reachable_quantities_at_least_one_witness :
    (∀ op ∈ [CartOp.add sampleProduct 1, CartOp.update "p1" (-4), CartOp.add sampleProduct 3,
        CartOp.add sampleProduct 2], op.addAtLeastOne = true) ∧
    ∀ it ∈ runOps ([CartOp.add sampleProduct 1, CartOp.update "p1" (-4),
        CartOp.add sampleProduct 3, CartOp.add sampleProduct 2].take 4) [], 1 ≤ it.quantity :=
  ⟨by decide, reachable_quantities_at_least_one _ (by decide) 4⟩

/-- C27: on a cart with pairwise distinct product ids, `getItemCount()` after
`addToCart(product, q)` is `getItemCount()` before plus `q`, whether or not the
product was in the cart; on a cart holding the same id twice the count can
grow by more, here by 2 for `q = 1`. -/
theorem getItemCount_addToCart (cart : Cart) (product : Product) (q : Int)
    (hnd : (productIds cart).Nodup) :
    getItemCount (addToCart cart product q) = getItemCount cart + q ∧
    getItemCount (addToCart [exampleFirstItem, exampleFirstItem] sampleProduct 1) =
      getItemCount [exampleFirstItem, exampleFirstItem] + 2 := by
  refine ⟨?_, by decide⟩
  rw [getItemCount_eq_sum, getItemCount_eq_sum]
  by_cases hp : ∃ it ∈ cart, it.product_id = product.id
  · rw [addToCart_present cart product q hp]
    exact sumQuantities_map_add cart product.id q hnd hp
  · have habs : ∀ it ∈ cart, it.product_id ≠ product.id := fun it hit hid => hp ⟨it, hit, hid⟩
    rw [addToCart_absent cart product q habs, sumQuantities_append_singleton]
    rfl

/-- C27 on the example cart, adding 4 of a product it already holds. -/
theorem getItemCount_addToCart_witness :
    (productIds exampleCart).Nodup ∧
    getItemCount (addToCart exampleCart sampleProduct 4) = getItemCount exampleCart + 4 :=
  ⟨by decide, (getItemCount_addToCart exampleCart sampleProduct 4 (by decide)).1⟩

/-! ## The discount popup -/

theorem chooseNextPopup_some (dismissed : List String) (popupList : List Popup) (random : ℚ)
    (popup : Popup) (h : chooseNextPopup dismissed popupList random = some popup) :
    popup ∈ popupList ∧ popup.id ∉ dismissed := by
  unfold chooseNextPopup at h
  simp only at h
  split at h
  · have hmem := List.getElem?_mem h
    rw [List.mem_filter] at hmem
    exact ⟨hmem.1, by simpa using hmem.2⟩
  · cases h

theorem randomIndex_lt (random : ℚ) (length : Nat) (h0 : 0 ≤ random) (h1 : random < 1)
    (hpos : 0 < length) : randomIndex random length < length := by
  unfold randomIndex
  have hlen : (0 : ℚ) < length := by exact_mod_cast hpos
  have hlt : random * length < length := by nlinarith
  have hfloor : ⌊random * (length : ℚ)⌋ < (length : ℤ) := by
    rw [Int.floor_lt]
    exact_mod_cast hlt
  have hnonneg : 0 ≤ ⌊random * (length : ℚ)⌋ := Int.floor_nonneg.mpr (by positivity)
  omega

theorem chooseNextPopup_single (dismissed : List String) (popup : Popup) (random : ℚ)
    (h0 : 0 ≤ random) (h1 : random < 1) (hnot : popup.id ∉ dismissed) :
    chooseNextPopup dismissed [popup] random = some popup := by
  have hfilter : [popup].filter (fun p => !dismissed.contains p.id) = [popup] := by
    rw [List.filter_eq_self]
    intro p hp
    rw [List.mem_singleton] at hp
    subst hp
    simpa using hnot
  have hindex : randomIndex random 1 = 0 := by
    have := randomIndex_lt random 1 h0 h1 (by decide)
    omega
  unfold chooseNextPopup
  simp only [hfilter, List.length_singleton, hindex]
  rfl

theorem mount_single (s : PopupState) (popup : Popup) (random : ℚ)
    (h0 : 0 ≤ random) (h1 : random < 1) :
    (PopupEvent.mount (some [popup]) random).step s =
      { popups := [popup], currentPopup := some popup, dismissed := [],
        timers := [(popup.id, dismissDelay popup)] } := by
  show fetchPopups initialPopupState (some [popup]) random = _
  have hchoose : chooseNextPopup [] [popup] random = some popup :=
    chooseNextPopup_single [] popup random h0 h1 (by simp)
  simp [fetchPopups, showNextPopup, initialPopupState, hchoose]

theorem showNextPopup_current (s : PopupState) (popupList : List Popup) (random : ℚ)
    (hinv : ∀ p, s.currentPopup = some p → p.id ∉ s.dismissed) :
    ∀ p, (showNextPopup s popupList random).currentPopup = some p →
      p.id ∉ (showNextPopup s popupList random).dismissed := by
  intro p hp
  unfold showNextPopup at hp ⊢
  cases hc : chooseNextPopup s.dismissed popupList random with
  | none =>
    rw [hc] at hp
    simp only [hc]
    exact hinv p hp
  | some popup =>
    rw [hc] at hp
    simp only [hc]
    have hpop : popup = p := by simpa using hp
    rw [← hpop]
    exact (chooseNextPopup_some s.dismissed popupList random popup hc).2

theorem fetchPopups_current (s : PopupState) (response : Option (List Popup)) (random : ℚ)
    (hinv : ∀ p, s.currentPopup = some p → p.id ∉ s.dismissed) :
    ∀ p, (fetchPopups s response random).currentPopup = some p →
      p.id ∉ (fetchPopups s response random).dismissed := by
  unfold fetchPopups
  cases response with
  | none => exact hinv
  | some data =>
    simp only
    split
    · exact showNextPopup_current { s with popups := data } data random hinv
    · exact hinv

theorem step_current (s : PopupState) (event : PopupEvent) :
    ∀ p, (event.step s).currentPopup = some p → p.id ∉ (event.step s).dismissed := by
  cases event with
  | mount response random =>
    exact fetchPopups_current initialPopupState response random (fun p hp => by cases hp)
  | dismiss other =>
    intro p hp
    cases hp

theorem run_dismissals_current (s : PopupState) (first : String) (others : List String) :
    (runPopupEvents ((first :: others).map PopupEvent.dismiss) s).currentPopup = none := by
  induction others generalizing s first with
  | nil => rfl
  | cons next rest ih => exact ih (handleDismiss s first) next

/-- C21, as stated, fails: the popup `a` is shown at mount and dismissed, so its id is in
the dismissed set; the component is then mounted again (the user has been to
`/admin` and back), `fetchPopups` runs again with the same list, and `a` is on
display again. -/
theorem dismissed_popup_shown_after_remount :
    ¬ (∀ (before after : List PopupEvent) (popupId : String) (popup : Popup),
      popupId ∈ (runPopupEvents before initialPopupState).dismissed →
      (runPopupEvents (before ++ after) initialPopupState).currentPopup = some popup →
      popup.id ≠ popupId) ∧
    (runPopupEvents [PopupEvent.mount (some [popupA]) 0] initialPopupState).currentPopup =
      some popupA ∧
    (runPopupEvents [PopupEvent.mount (some [popupA]) 0, PopupEvent.dismiss "a"]
      initialPopupState).dismissed = ["a"] ∧
    (runPopupEvents [PopupEvent.mount (some [popupA]) 0, PopupEvent.dismiss "a",
      PopupEvent.mount (some [popupA]) 0] initialPopupState).currentPopup = some popupA := by
  have hmount : ∀ s : PopupState, (PopupEvent.mount (some [popupA]) 0).step s =
      { popups := [popupA], currentPopup := some popupA, dismissed := [],
        timers := [(popupA.id, dismissDelay popupA)] } :=
    fun s => mount_single s popupA 0 (le_refl 0) (by norm_num)
  have h1 : (runPopupEvents [PopupEvent.mount (some [popupA]) 0]
      initialPopupState).currentPopup = some popupA := by
    show ((PopupEvent.mount (some [popupA]) 0).step initialPopupState).currentPopup = _
    rw [hmount]
  have h2 : (runPopupEvents [PopupEvent.mount (some [popupA]) 0, PopupEvent.dismiss "a"]
      initialPopupState).dismissed = ["a"] := by
    show (handleDismiss ((PopupEvent.mount (some [popupA]) 0).step initialPopupState)
      "a").dismissed = _
    rw [hmount]
    rfl
  have h3 : (runPopupEvents [PopupEvent.mount (some [popupA]) 0, PopupEvent.dismiss "a",
      PopupEvent.mount (some [popupA]) 0] initialPopupState).currentPopup = some popupA := by
    show ((PopupEvent.mount (some [popupA]) 0).step
      (handleDismiss ((PopupEvent.mount (some [popupA]) 0).step initialPopupState)
        "a")).currentPopup = _
    rw [hmount]
  refine ⟨?_, h1, h2, h3⟩
  intro h
  have hmem : "a" ∈ (runPopupEvents [PopupEvent.mount (some [popupA]) 0,
      PopupEvent.dismiss "a"] initialPopupState).dismissed := by
    rw [h2]
    exact List.mem_singleton.mpr rfl
  exact h [PopupEvent.mount (some [popupA]) 0, PopupEvent.dismiss "a"]
    [PopupEvent.mount (some [popupA]) 0] "a" popupA hmem h3 rfl

/-- C21, amended: the popup chosen by `showNextPopup` is a member of the supplied list
whose id is not in the dismissed set it sees; nothing is chosen when every id
is dismissed, and something is chosen when some id is not.  After every event
the popup on display does not have an id of the current dismissed set, and
within one mount nothing is on display after a dismissal; a new mount starts
with an empty dismissed set. -/
theorem dismissed_popup_not_shown_within_mount :
    (∀ (dismissed : List String) (popupList : List Popup) (random : ℚ) (popup : Popup),
      chooseNextPopup dismissed popupList random = some popup →
      popup ∈ popupList ∧ popup.id ∉ dismissed) ∧
    (∀ (dismissed : List String) (popupList : List Popup) (random : ℚ),
      (∀ p ∈ popupList, p.id ∈ dismissed) →
      chooseNextPopup dismissed popupList random = none) ∧
    (∀ (dismissed : List String) (popupList : List Popup) (random : ℚ),
      0 ≤ random → random < 1 → (∃ p ∈ popupList, p.id ∉ dismissed) →
      ∃ popup, chooseNextPopup dismissed popupList random = some popup) ∧
    (∀ (s : PopupState) (event : PopupEvent) (popup : Popup),
      (event.step s).currentPopup = some popup → popup.id ∉ (event.step s).dismissed) ∧
    (∀ (s : PopupState) (response : Option (List Popup)) (random : ℚ) (first : String)
      (others : List String),
      (runPopupEvents
        (PopupEvent.mount response random :: (first :: others).map PopupEvent.dismiss)
        s).currentPopup = none) ∧
    (∀ (s : PopupState) (response : Option (List Popup)) (random : ℚ),
      ((PopupEvent.mount response random).step s).dismissed = []) := by
  refine ⟨chooseNextPopup_some, ?_, ?_, step_current, ?_, ?_⟩
  · intro dismissed popupList random hall
    cases hc : chooseNextPopup dismissed popupList random with
    | none => rfl
    | some popup =>
      have hs := chooseNextPopup_some dismissed popupList random popup hc
      exact absurd (hall popup hs.1) hs.2
  · intro dismissed popupList random h0 h1 hex
    obtain ⟨p, hp, hnot⟩ := hex
    have hmem : p ∈ popupList.filter (fun p => !dismissed.contains p.id) := by
      rw [List.mem_filter]
      exact ⟨hp, by simpa using hnot⟩
    have hpos : 0 < (popupList.filter (fun p => !dismissed.contains p.id)).length :=
      List.length_pos_of_mem hmem
    have hlt := randomIndex_lt random _ h0 h1 hpos
    unfold chooseNextPopup
    simp only
    rw [if_pos hpos]
    exact ⟨_, List.getElem?_eq_getElem hlt⟩
  · intro s response random first others
    exact run_dismissals_current _ first others
  · intro s response random
    show (fetchPopups initialPopupState response random).dismissed = []
    unfold fetchPopups
    cases response with
    | none => rfl
    | some data =>
      simp only
      split
      · unfold showNextPopup
        split <;> rfl
      · rfl

/-! ## Checkout -/

/-- C22: when the order-creation endpoint succeeds the cart is empty after `handleSubmit`,
and when it fails the cart is the cart before the submission; in both cases
the body posted is the one built from the cart before. -/
theorem handleSubmit_cart (s : CheckoutState) :
    (handleSubmit s (.ok ())).cart = [] ∧
    (∀ e : ApiError, (handleSubmit s (.error e)).cart = s.cart) ∧
    (∀ response : Except ApiError Unit,
      (handleSubmit s response).orders = s.orders ++ [buildOrderData s]) := by
  refine ⟨rfl, fun e => rfl, ?_⟩
  intro response
  cases response <;> rfl

/-- C23, as stated, fails: with a discount of 100 applied, a failed validation leaves a
discount amount of 0, and the final total rises from 1200 to 1300. -/
theorem validateDiscount_failure_resets_amount :
    ¬ (∀ (showNumber : JSNumber → String) (s : CheckoutState) (e : ApiError),
      (validateDiscount showNumber s (.error e)).discountAmount = s.discountAmount ∧
      finalTotal (validateDiscount showNumber s (.error e)) = finalTotal s) ∧
    finalTotal discountedCheckout = 1200 ∧
    finalTotal (validateDiscount sampleShowNumber discountedCheckout (.error ⟨none⟩)) = 1300 := by
  refine ⟨?_, by decide!, by decide!⟩
  intro h
  exact absurd (h sampleShowNumber discountedCheckout ⟨none⟩).1 (by decide!)

/-- C23, amended: when the validation endpoint fails for an entered code that is not
blank, the applied discount amount is reset to 0, so the final total is the
subtotal of the cart; the cart, the entered code, the address and the loading
flag are unchanged.  For a code that is blank after `trim()` no request is sent
and the state is unchanged, whatever the endpoint would answer. -/
theorem validateDiscount_failure (showNumber : JSNumber → String) (s : CheckoutState)
    (e : ApiError) :
    ((trim s.discountCode == "") = false →
      (validateDiscount showNumber s (.error e)).discountAmount = 0 ∧
      finalTotal (validateDiscount showNumber s (.error e)) = getTotal s.cart ∧
      (validateDiscount showNumber s (.error e)).cart = s.cart ∧
      (validateDiscount showNumber s (.error e)).discountCode = s.discountCode ∧
      (validateDiscount showNumber s (.error e)).address = s.address ∧
      (validateDiscount showNumber s (.error e)).loading = s.loading) ∧
    ((trim s.discountCode == "") = true →
      ∀ response : Except ApiError JSNumber, validateDiscount showNumber s response = s) := by
  constructor
  · intro hcode
    have heq : validateDiscount showNumber s (.error e) =
        { s with
          toasts := s.toasts ++ [errorMessage e "Invalid discount code"]
          discountAmount := 0 } := by
      unfold validateDiscount
      rw [hcode]
      rfl
    rw [heq]
    refine ⟨rfl, ?_, rfl, rfl, rfl, rfl⟩
    exact getTotal_sub_zero s.cart
  · intro hcode response
    unfold validateDiscount
    rw [hcode]
    rfl

/-- C23, amended, on the checkout with the code `SAVE` and a discount of 100, and on the
same checkout with a code made of a no-break space and a space. -/
theorem validateDiscount_failure_witness :
    ((trim discountedCheckout.discountCode == "") = false ∧
      (validateDiscount sampleShowNumber discountedCheckout
        (.error ⟨some "Code expired"⟩)).discountAmount = 0 ∧
      finalTotal (validateDiscount sampleShowNumber discountedCheckout
        (.error ⟨some "Code expired"⟩)) = getTotal discountedCheckout.cart) ∧
    ((trim blankCodeCheckout.discountCode == "") = true ∧
      validateDiscount sampleShowNumber blankCodeCheckout (.error ⟨some "Code expired"⟩) =
        blankCodeCheckout) :=
  ⟨⟨by decide,
      ((validateDiscount_failure sampleShowNumber discountedCheckout
        ⟨some "Code expired"⟩).1 (by decide)).1,
      ((validateDiscount_failure sampleShowNumber discountedCheckout
        ⟨some "Code expired"⟩).1 (by decide)).2.1⟩,
    ⟨by decide,
      (validateDiscount_failure sampleShowNumber blankCodeCheckout
        ⟨some "Code expired"⟩).2 (by decide) (.error ⟨some "Code expired"⟩)⟩⟩

/-- C28: the order body built at checkout has one item per cart line item, in the same
order, each with the product id, name, quantity and price of its line item and
without the image; the sum of price times quantity over its items, added up
from left to right as `getTotal()` adds, is `getTotal()` of the cart, also when
prices are not whole numbers; `discount_code` is `null` exactly when the entered
code is the empty string, otherwise it is the entered code; and the prices and
quantities of the items are, in order, those of the cart, so that adding them
up in any other way gives the same on both sides as well: the exact sums agree,
and for whole-number prices within the safe integers the exact sum over the
items is `getTotal()` too. -/
theorem buildOrderData_mirrors_cart (s : CheckoutState) :
    (buildOrderData s).items.length = s.cart.length ∧
    (∀ (i : Nat) (item : LineItem), s.cart[i]? = some item →
      (buildOrderData s).items[i]? =
        some { product_id := item.product_id, product_name := item.product_name,
               quantity := item.quantity, price := item.price }) ∧
    orderItemsTotal (buildOrderData s).items = getTotal s.cart ∧
    ((buildOrderData s).discount_code = none ↔ s.discountCode = "") ∧
    (s.discountCode ≠ "" → (buildOrderData s).discount_code = some s.discountCode) ∧
    (buildOrderData s).items.map (fun item => (item.price, item.quantity)) =
      s.cart.map (fun item => (item.price, item.quantity)) ∧
    sumOrderItems (buildOrderData s).items = sumPriceTimesQuantity s.cart ∧
    (wholeAndSafe s.cart = true → sumOrderItems (buildOrderData s).items = getTotal s.cart) := by
  have hexact : sumOrderItems (buildOrderData s).items = sumPriceTimesQuantity s.cart := by
    simp [sumOrderItems, sumPriceTimesQuantity, buildOrderData, List.map_map, Function.comp_def]
  refine ⟨?_, ?_, ?_, ?_, ?_, ?_, hexact, ?_⟩
  · simp [buildOrderData]
  · intro i item hi
    simp [buildOrderData, List.getElem?_map, hi]
  · unfold orderItemsTotal getTotal buildOrderData
    simp only
    rw [List.foldl_map]
  · by_cases hcode : s.discountCode = "" <;> simp [buildOrderData, hcode]
  · intro hcode
    simp [buildOrderData, hcode]
  · simp [buildOrderData, List.map_map, Function.comp_def]
  · intro hsafe
    rw [hexact, getTotal_whole s.cart hsafe,
      sumPriceTimesQuantity_whole s.cart
        (fun item hitem => ((wholeAndSafe_spec s.cart hsafe).1 item hitem).1)]

/-! ## The quantity selector -/

theorem step_at_least_one (stock quantity : Int) (action : SelectorAction)
    (hstock : 1 ≤ stock) (hq : 1 ≤ quantity) : 1 ≤ action.step stock quantity := by
  cases action with
  | decrement => exact le_max_left _ _
  | increment =>
    show 1 ≤ min stock (quantity + 1)
    exact le_min hstock (by omega)
  | typed parsed => exact le_max_left _ _

theorem foldl_step_at_least_one (stock : Int) (actions : List SelectorAction) (quantity : Int)
    (hstock : 1 ≤ stock) (hq : 1 ≤ quantity) :
    1 ≤ actions.foldl (SelectorAction.step stock) quantity := by
  induction actions generalizing quantity with
  | nil => exact hq
  | cons action rest ih => exact ih _ (step_at_least_one stock quantity action hstock hq)

/-- C24, evaluated on the code: the minus button and the typed value clamp the quantity
to at least 1 for every stock, but the plus button takes only the minimum with
the stock.  For a product with stock 0 one press of the plus button selects
the quantity 0; for a stock of -1 it selects -1, the add-to-cart button is
enabled, and a line item of quantity -1 is stored.  The quantity stays at
least 1 along every sequence of actions when the stock is at least 1. -/
theorem increment_selects_below_one :
    selectedQuantity 0 [SelectorAction.increment] = 0 ∧
    selectedQuantity (-1) [SelectorAction.increment] = -1 ∧
    (clickAddToCart [] oversoldProduct
      (selectedQuantity oversoldProduct.stock [SelectorAction.increment])).map
      (fun item => item.quantity) = [-1] ∧
    (∀ stock quantity : Int, 1 ≤ SelectorAction.decrement.step stock quantity) ∧
    (∀ (stock quantity : Int) (parsed : Option Int),
      1 ≤ (SelectorAction.typed parsed).step stock quantity) ∧
    (∀ (stock : Int) (actions : List SelectorAction), 1 ≤ stock →
      1 ≤ selectedQuantity stock actions) := by
  refine ⟨by decide, by decide, by decide, ?_, ?_, ?_⟩
  · intro stock quantity
    exact le_max_left _ _
  · intro stock quantity parsed
    exact le_max_left _ _
  · intro stock actions hstock
    exact foldl_step_at_least_one stock actions 1 hstock (le_refl 1)

/-! ## The shop listing -/

theorem perm_sortBy {α : Type} (compare : α → α → Int) (items : List α) :
    (sortBy compare items).Perm items :=
  List.perm_insertionSort _ items

theorem sorted_sortBy {α : Type} (compare : α → α → Int) (items : List α)
    (htotal : ∀ a b, compare a b ≤ 0 ∨ compare b a ≤ 0)
    (htrans : ∀ a b d, compare a b ≤ 0 → compare b d ≤ 0 → compare a d ≤ 0) :
    (sortBy compare items).Sorted (fun a b => compare a b ≤ 0) := by
  haveI : IsTotal α (fun a b => compare a b ≤ 0) := ⟨htotal⟩
  haveI : IsTrans α (fun a b => compare a b ≤ 0) := ⟨htrans⟩
  exact List.sorted_insertionSort _ items

theorem filterAndSort_eq (toLowerCase : String → String)
    (localeCompare : String → String → Int) (products : List CatalogProduct)
    (searchQuery selectedCategory sortKey : String) :
    filterAndSort toLowerCase localeCompare products searchQuery selectedCategory sortKey =
      sortBy (compareProducts localeCompare sortKey)
        (products.filter (shopMatches toLowerCase searchQuery selectedCategory)) := by
  have hm : shopMatches toLowerCase searchQuery selectedCategory = fun p =>
      (selectedCategory == "all" || p.category == selectedCategory) &&
      (searchQuery == "" ||
        includes (toLowerCase p.name) (toLowerCase searchQuery) ||
        includes (toLowerCase p.description) (toLowerCase searchQuery)) := by
    funext p
    rfl
  unfold filterAndSort
  rw [hm]
  by_cases hc : selectedCategory = "all"
  · by_cases hq : searchQuery = ""
    · simp [hc, hq]
    · have hqb : (searchQuery == "") = false := by simpa using hq
      simp [hc, hq, hqb]
  · have hcb : (selectedCategory == "all") = false := by simpa using hc
    by_cases hq : searchQuery = ""
    · simp [hc, hq, hcb]
    · have hqb : (searchQuery == "") = false := by simpa using hq
      simp [hc, hq, hcb, hqb, List.filter_filter, Bool.and_comm]

/-- C29: for every product list, category, query and sort key the list computed by
`filterAndSortProducts` is a permutation of the products whose category is the
selected one (all of them for `all`) and whose name or description contains
the query, letter case ignored (all of them for the empty query); it is in
non-decreasing price order for `price-low` and in non-increasing price order
for `price-high`; and the `products` list of the page is left as it was. -/
theorem filterAndSort_listing (toLowerCase : String → String)
    (localeCompare : String → String → Int) (s : ShopState) :
    (filterAndSortProducts toLowerCase localeCompare s).filteredProducts.Perm
      (s.products.filter (shopMatches toLowerCase s.searchQuery s.selectedCategory)) ∧
    (filterAndSort toLowerCase localeCompare s.products s.searchQuery s.selectedCategory
      "price-low").Sorted (fun a b => a.price_inr ≤ b.price_inr) ∧
    (filterAndSort toLowerCase localeCompare s.products s.searchQuery s.selectedCategory
      "price-high").Sorted (fun a b => b.price_inr ≤ a.price_inr) ∧
    (filterAndSortProducts toLowerCase localeCompare s).products = s.products := by
  refine ⟨?_, ?_, ?_, rfl⟩
  · show (filterAndSort toLowerCase localeCompare s.products s.searchQuery s.selectedCategory
      s.sortKey).Perm _
    rw [filterAndSort_eq]
    exact perm_sortBy _ _
  · rw [filterAndSort_eq]
    have hs := sorted_sortBy (compareProducts localeCompare "price-low")
      (s.products.filter (shopMatches toLowerCase s.searchQuery s.selectedCategory))
      (fun a b => by simp only [compareProducts, if_true]; omega)
      (fun a b d => by simp only [compareProducts, if_true]; omega)
    refine List.Pairwise.imp ?_ hs
    intro a b hab
    simp only [compareProducts, if_true] at hab
    omega
  · rw [filterAndSort_eq]
    have hs := sorted_sortBy (compareProducts localeCompare "price-high")
      (s.products.filter (shopMatches toLowerCase s.searchQuery s.selectedCategory))
      (fun a b => by simp [compareProducts]; omega)
      (fun a b d => by simp [compareProducts]; omega)
    refine List.Pairwise.imp ?_ hs
    intro a b hab
    simp [compareProducts] at hab
    omega

/-! ## The route guards -/

/-- C30: `AdminRoute` renders its children exactly when `loading` is false, a user is
present and `isAdmin` is true, that is the role of the user is `ADMIN`;
`ProtectedRoute` renders its children exactly when `loading` is false and a user
is present; in every other session state the guard renders the spinner or a
redirect. -/
theorem route_guards (s : AuthState) :
    (adminRouteOf s = RouteView.children ↔
      s.loading = false ∧ s.user.isSome = true ∧ isAdmin s.user = true) ∧
    (adminRouteOf s = RouteView.children ↔
      s.loading = false ∧ ∃ profile : Profile, s.user = some profile ∧
        profile.role = some "ADMIN") ∧
    (protectedRouteOf s = RouteView.children ↔ s.loading = false ∧ s.user.isSome = true) ∧
    (adminRouteOf s = RouteView.children ∨ adminRouteOf s = RouteView.spinner ∨
      adminRouteOf s = RouteView.redirect "/") ∧
    (protectedRouteOf s = RouteView.children ∨ protectedRouteOf s = RouteView.spinner ∨
      protectedRouteOf s = RouteView.redirect "/login") ∧
    (∀ admin : Bool, adminRoute s.user admin s.loading = RouteView.children ↔
      s.loading = false ∧ s.user.isSome = true ∧ admin = true) := by
  obtain ⟨user, loading, storage, requests, toasts⟩ := s
  cases loading
  · cases user with
    | none => simp [adminRouteOf, protectedRouteOf, adminRoute, protectedRoute, isAdmin]
    | some profile =>
      by_cases hrole : profile.role = some "ADMIN" <;>
        simp [adminRouteOf, protectedRouteOf, adminRoute, protectedRoute, isAdmin, hrole]
  · cases user <;>
      simp [adminRouteOf, protectedRouteOf, adminRoute, protectedRoute, isAdmin]

end Blend4u
